import Mathlib

/-!
# Verification of the tide-database curation core

A shallow embedding of the core logic of the `tide-database` repository:

* the station priority comparator and filtering helpers (`tools/filtering.ts`),
* the TICON import deduplication pipeline (`tools/import-ticon.ts`, phase 2),
* the synthetic tidal-datum engine (`tools/datum.ts`),
* the spatial `near` / `nearest` queries (`src/search/index.ts`).

Modelling conventions:

* JavaScript numbers are modelled as `ℚ` (the logic under verification only
  adds, subtracts, divides and compares; transcendental float rounding is not
  load-bearing for the verified properties).
* `Date` values are modelled by their millisecond timestamps (`ℤ` inside epoch
  records, `ℚ` in the datum engine where they are mixed with arithmetic).
* JavaScript `NaN` (produced by `mean` of an empty array) is modelled by
  `Option ℚ`, `none` standing for `NaN`; arithmetic propagates `none`.
* `String.prototype.localeCompare` is modelled as code-point lexicographic
  three-way comparison.
* The haversine `distance` functions (`tools/filtering.ts` and geokdbush) are
  transcendental float computations; the pipeline and index are therefore
  parametrised by an abstract distance function, and claims quantify over it.
* JavaScript `Set` objects are modelled as `List String` with `List.insert`
  (membership-equivalent).
* `Array.prototype.sort`, which is stable in modern engines, is modelled by
  `List.mergeSort`, which is stable.
-/

namespace TideDB

/-! ## Data model (§3 of the spec; `StationData` fields read by the core) -/

/-- The `source` sub-record of a station; the core logic reads only `id`
(the provider-local id string, e.g. `"abashiri-347-jpn-uhslc_fd"`). -/
structure SourceRef where
  id : String
deriving DecidableEq, Repr

/-- An observation epoch; the source stores ISO date strings and parses them
with `new Date`, modelled here directly by millisecond timestamps.
The source field `end` is a Lean keyword and is named `stop` here. -/
structure Epoch where
  start : ℤ
  stop : ℤ
deriving DecidableEq, Repr

/-- The fields of `StationData` that the priority comparator and the
deduplication pipeline read. -/
structure Station where
  latitude : ℚ
  longitude : ℚ
  disclaimers : Option String
  source : SourceRef
  epoch : Option Epoch
deriving DecidableEq, Repr

/-! ## `tools/filtering.ts` -/

/-- Source quality priority for TICON stations (lower = better quality);
the JS object `SOURCE_PRIORITY` as an association list. -/
def SOURCE_PRIORITY : List (String × ℕ) :=
  [("uhslc_fd", 1), ("bodc", 2),
   ("meds", 4), ("refmar", 5), ("bom", 6), ("jodc_jma", 7), ("smhi", 8),
   ("nhs", 9), ("ieo", 10),
   ("wsv", 20), ("rws", 21), ("rws_hist", 22), ("fmi", 23), ("dmi", 24),
   ("ispra", 25), ("noc", 26), ("eseas", 27), ("bfg", 28), ("icg", 29),
   ("usgs", 40), ("crms", 41), ("cdwr", 42), ("sfwmd", 43), ("nwfwmd", 44),
   ("ncdem", 45), ("hct", 46), ("cm", 47),
   ("uhslc_rq", 80), ("unam", 85), ("unam_hist", 86), ("jodc_pahb", 87),
   ("jodc_jcg", 88), ("jodc_giaj", 89), ("ttw", 90), ("mi_c", 91),
   ("mi_r", 92), ("cco", 93), ("da_idh", 94), ("da_mm", 95), ("gloss", 96),
   ("cmems", 97), ("cv", 97), ("uz", 97),
   ("da_sat", 99)]

/-- Default priority for unknown sources. -/
def DEFAULT_PRIORITY : ℕ := 50

/-- `sourceId.split("-")` and take the last component (`parts[parts.length - 1]`).
Splitting is performed on the underlying character list, which agrees with
`String.splitOn "-"` for the single-character separator. -/
def getSourceSuffix (sourceId : String) : String :=
  String.mk ((sourceId.data.splitOn '-').getLastD [])

/-- `SOURCE_PRIORITY[suffix] ?? DEFAULT_PRIORITY`. -/
def getSourcePriority (sourceId : String) : ℕ :=
  ((SOURCE_PRIORITY.lookup (getSourceSuffix sourceId)).getD DEFAULT_PRIORITY)

/-- JavaScript `s.includes(sub)`: substring containment. -/
def jsIncludes (s sub : String) : Bool :=
  decide (sub.data <:+: s.data)

/-- `disclaimers?.includes("quality control issues") ?? false`. -/
def hasQualityIssues (disclaimers : Option String) : Bool :=
  match disclaimers with
  | some s => jsIncludes s "quality control issues"
  | none => false

/-- Milliseconds in a Julian year, `365.25 * 24 * 60 * 60 * 1000`. -/
def JULIAN_YEAR_MS : ℚ := 365.25 * 24 * 60 * 60 * 1000

/-- Observation years from an epoch object: `(end - start) / (365.25 d)`;
`0` when the epoch is absent. -/
def epochYears (epoch : Option Epoch) : ℚ :=
  match epoch with
  | none => 0
  | some e => ((e.stop - e.start : ℤ) : ℚ) / JULIAN_YEAR_MS

/-- Model of `String.prototype.localeCompare` as a code-point three-way
comparison: negative, zero or positive as `s` sorts before, equal to or
after `t`. -/
def localeCompare (s t : String) : ℚ :=
  if s < t then -1 else if t < s then 1 else 0

/-- `compareStationPriority` from `tools/filtering.ts`: negative if
`station1` has higher priority, positive if `station2` has higher
priority.  Rules in order: quality issues, observation years, source
priority, alphabetical source id. -/
def compareStationPriority (station1 station2 : Station) : ℚ :=
  let issues1 := hasQualityIssues station1.disclaimers
  let issues2 := hasQualityIssues station2.disclaimers
  if issues1 ≠ issues2 then
    (if issues1 then 1 else -1)
  else
    let years1 := epochYears station1.epoch
    let years2 := epochYears station2.epoch
    if years1 ≠ years2 then
      years2 - years1
    else
      let priority1 := getSourcePriority station1.source.id
      let priority2 := getSourcePriority station2.source.id
      if priority1 ≠ priority2 then
        (priority1 : ℚ) - (priority2 : ℚ)
      else
        localeCompare station1.source.id station2.source.id

/-- Minimum distance between TICON stations and NOAA stations, in km (100 m). -/
def MIN_DISTANCE_TO_NOAA : ℚ := 1/10

/-- Minimum distance between TICON stations, in km (50 m). -/
def MIN_DISTANCE_TICON : ℚ := 1/20

/-! ## The priority key (spec §3, `PriorityKey`) and the comparator order -/

/-- `a` strictly outranks `b`: the first differing rule of the four-rule
chain decides in favour of `a`. -/
def keyLt (a b : Station) : Prop :=
  (hasQualityIssues a.disclaimers = false ∧ hasQualityIssues b.disclaimers = true) ∨
  (hasQualityIssues a.disclaimers = hasQualityIssues b.disclaimers ∧
    epochYears b.epoch < epochYears a.epoch) ∨
  (hasQualityIssues a.disclaimers = hasQualityIssues b.disclaimers ∧
    epochYears a.epoch = epochYears b.epoch ∧
    getSourcePriority a.source.id < getSourcePriority b.source.id) ∨
  (hasQualityIssues a.disclaimers = hasQualityIssues b.disclaimers ∧
    epochYears a.epoch = epochYears b.epoch ∧
    getSourcePriority a.source.id = getSourcePriority b.source.id ∧
    a.source.id < b.source.id)

/-- `a` and `b` tie on all four rules. -/
def keyEq (a b : Station) : Prop :=
  hasQualityIssues a.disclaimers = hasQualityIssues b.disclaimers ∧
  epochYears a.epoch = epochYears b.epoch ∧
  getSourcePriority a.source.id = getSourcePriority b.source.id ∧
  a.source.id = b.source.id

/-! ## Spatial queries (`src/search/index.ts`)

The geo index is built from the station list in insertion order
(`src/search/geo.ts`) and queried through geokdbush `around`. -/

/-- A station as seen by the spatial index: its stable id and coordinates. -/
structure GeoStation where
  id : String
  latitude : ℚ
  longitude : ℚ
deriving DecidableEq, Repr

instance : Inhabited GeoStation := ⟨⟨"", 0, 0⟩⟩

/-- `true` iff the distance is within the (possibly infinite) bound;
`none` models the default `maxDistance = Infinity`. -/
def withinMax (maxDistance : Option ℚ) (dv : ℚ) : Bool :=
  match maxDistance with
  | none => true
  | some m => decide (dv ≤ m)

/-- Modelled from the spec: geokdbush `around(index, lng, lat, maxResults,
maxDistance, filter)` is an external dependency (not in this repository).
Spec §4.1: it returns up to `maxResults` points satisfying the predicate
within `maxDistance` great-circle distance, ascending by distance, ties
broken by original insertion order (stable).  `aroundPairs` lists the
kept (index, distance) pairs in that order; the distance function is
abstract (§4.1: haversine). -/
def aroundPairs (dist : ℚ → ℚ → ℚ → ℚ → ℚ) (stations : List GeoStation)
    (lon lat : ℚ) (maxDistance : Option ℚ) (pred : ℕ → Bool) : List (ℕ × ℚ) :=
  (((List.range stations.length).map (fun i =>
      (i, dist lon lat (stations.getD i default).longitude
        (stations.getD i default).latitude))).filter
    (fun p => pred p.1 && withinMax maxDistance p.2)).mergeSort
    (fun p q => decide (p.2 ≤ q.2))

/-- Modelled from the spec: the index positions returned by geokdbush
`around`, in ascending-distance order. -/
def around (dist : ℚ → ℚ → ℚ → ℚ → ℚ) (stations : List GeoStation)
    (lon lat : ℚ) (maxResults : ℕ) (maxDistance : Option ℚ) (pred : ℕ → Bool) :
    List ℕ :=
  ((aroundPairs dist stations lon lat maxDistance pred).take maxResults).map Prod.fst

/-- `near` from `src/search/index.ts`: query `around` over the geo index,
then map each returned index to the station and its (recomputed) distance. -/
def near (dist : ℚ → ℚ → ℚ → ℚ → ℚ) (stations : List GeoStation)
    (lat lon : ℚ) (maxDistance : Option ℚ) (maxResults : ℕ)
    (filter : Option (GeoStation → Bool)) : List (GeoStation × ℚ) :=
  let pred : ℕ → Bool := fun i =>
    match filter with
    | some f => f (stations.getD i default)
    | none => true
  (around dist stations lon lat maxResults maxDistance pred).map (fun i =>
    (stations.getD i default,
      dist lon lat (stations.getD i default).longitude
        (stations.getD i default).latitude))

/-- `nearest`: `near` with `maxResults = 1`; `results[0] ?? null`. -/
def nearest (dist : ℚ → ℚ → ℚ → ℚ → ℚ) (stations : List GeoStation)
    (lat lon : ℚ) (maxDistance : Option ℚ)
    (filter : Option (GeoStation → Bool)) : Option (GeoStation × ℚ) :=
  (near dist stations lat lon maxDistance 1 filter).head?

/-! ## The deduplication pipeline (`tools/import-ticon.ts`, phase 2)

The pipeline is parametrised by the two haversine distance functions of the
source (`geokdbush.distance`, used through `near`, and
`tools/filtering.ts` `distance`, called directly); both are transcendental
float computations and are abstracted as function parameters.  The mutable
`removed` / `processed` `Set`s of the source are threaded explicitly. -/

/-- `` `ticon/${c.source.id}` ``. -/
def candidateId (c : Station) : String := "ticon/" ++ c.source.id

/-- Step 1a: remove NOAA-sourced TICON candidates (provider suffix `noaa`). -/
def step1a (candidates : List Station) (removed : List String) : List String :=
  candidates.foldl (fun rem c =>
    if getSourceSuffix c.source.id = "noaa" then rem.insert (candidateId c) else rem)
    removed

/-- The step-1b query: stations of the canonical data set whose id starts
with `noaa/` within 100 m of the candidate, at most one result. -/
def nearNoaa (distGeo : ℚ → ℚ → ℚ → ℚ → ℚ) (canonical : List GeoStation)
    (c : Station) : List (GeoStation × ℚ) :=
  near distGeo canonical c.latitude c.longitude (some MIN_DISTANCE_TO_NOAA) 1
    (some (fun s => decide ("noaa/".data <+: s.id.data)))

/-- Step 1b: remove candidates within 100 m of a canonical NOAA station. -/
def step1b (distGeo : ℚ → ℚ → ℚ → ℚ → ℚ) (canonical : List GeoStation)
    (candidates : List Station) (removed : List String) : List String :=
  candidates.foldl (fun rem c =>
    if candidateId c ∈ rem then rem
    else if (nearNoaa distGeo canonical c).length > 0 then rem.insert (candidateId c)
    else rem) removed

/-- `c.disclaimers?.includes("quality control issues")`, with the JS
optional-chain `undefined` collapsing to falsy. -/
def disclaimersFlag (c : Station) : Bool :=
  (c.disclaimers.map (fun s => jsIncludes s "quality control issues")).getD false

/-- The step-2 inner scan: some other candidate, not removed so far, without
quality issues, within 100 m. -/
def step2HasBetterNeighbor (d : ℚ → ℚ → ℚ → ℚ → ℚ) (all : List Station)
    (rem : List String) (c : Station) : Bool :=
  all.any (fun o =>
    decide (candidateId o ≠ candidateId c) && decide (candidateId o ∉ rem) &&
    !(disclaimersFlag o) &&
    decide (d c.latitude c.longitude o.latitude o.longitude ≤ 1/10))

/-- One step-2 iteration: remove a quality-flagged candidate when an
unflagged alternative lies within 100 m. -/
def step2Body (d : ℚ → ℚ → ℚ → ℚ → ℚ) (all : List Station)
    (rem : List String) (c : Station) : List String :=
  if candidateId c ∈ rem then rem
  else if !(disclaimersFlag c) then rem
  else if step2HasBetterNeighbor d all rem c then rem.insert (candidateId c)
  else rem

/-- Step 2 folded over a sub-list (the scan is always over `all`). -/
def step2Aux (d : ℚ → ℚ → ℚ → ℚ → ℚ) (all : List Station)
    (l : List Station) (removed : List String) : List String :=
  l.foldl (step2Body d all) removed

/-- Step 2: quality-superseded exclusion over the whole batch. -/
def step2 (d : ℚ → ℚ → ℚ → ℚ → ℚ) (candidates : List Station)
    (removed : List String) : List String :=
  step2Aux d candidates candidates removed

/-- The comparator as a boolean `le`, as consumed by the stable sort in
step 3 (`group.sort((a, b) => compareStationPriority(a, b))`). -/
def cmpLe (a b : Station) : Bool := decide (compareStationPriority a b ≤ 0)

/-- The single-hop neighborhood of `c` in step 3: every other candidate not
yet removed or processed within 50 m of `c`. -/
def step3nearby (d : ℚ → ℚ → ℚ → ℚ → ℚ) (all : List Station)
    (rem proc : List String) (c : Station) : List Station :=
  all.filter (fun o =>
    decide (candidateId o ≠ candidateId c) && decide (candidateId o ∉ rem) &&
    decide (candidateId o ∉ proc) &&
    decide (d c.latitude c.longitude o.latitude o.longitude ≤ MIN_DISTANCE_TICON))

/-- One step-3 iteration: skip finalized candidates, otherwise group `c`
with its single-hop neighborhood, keep the best by the Priority Comparator,
remove the rest, and mark the whole group processed. -/
def step3body (d : ℚ → ℚ → ℚ → ℚ → ℚ) (all : List Station)
    (rp : List String × List String) (c : Station) : List String × List String :=
  if candidateId c ∈ rp.1 ∨ candidateId c ∈ rp.2 then rp
  else
    let nearby := step3nearby d all rp.1 rp.2 c
    if nearby.isEmpty then (rp.1, rp.2.insert (candidateId c))
    else
      match (c :: nearby).mergeSort cmpLe with
      | [] => rp
      | keep :: others =>
        (others.foldl (fun r o => r.insert (candidateId o)) rp.1,
         others.foldl (fun p o => p.insert (candidateId o)) (rp.2.insert (candidateId keep)))

/-- Step 3 folded over a sub-list (the neighborhood scan is always over `all`). -/
def step3Aux (d : ℚ → ℚ → ℚ → ℚ → ℚ) (all : List Station)
    (l : List Station) (rp : List String × List String) :
    List String × List String :=
  l.foldl (step3body d all) rp

/-- Step 3: mutual-duplicate clustering over the whole batch; returns the
(removed, processed) id sets. -/
def step3 (d : ℚ → ℚ → ℚ → ℚ → ℚ) (candidates : List Station)
    (removed : List String) : List String × List String :=
  step3Aux d candidates candidates (removed, [])

/-- The complete removed-id set after the four phases. -/
def pipelineRemoved (distGeo d : ℚ → ℚ → ℚ → ℚ → ℚ) (canonical : List GeoStation)
    (candidates : List Station) : List String :=
  (step3 d candidates
    (step2 d candidates
      (step1b distGeo canonical candidates
        (step1a candidates [])))).1

/-- `candidates.filter((c) => !removed.has(candidateId(c)))`. -/
def surviving (distGeo d : ℚ → ℚ → ℚ → ℚ → ℚ) (canonical : List GeoStation)
    (candidates : List Station) : List Station :=
  candidates.filter (fun c =>
    decide (candidateId c ∉ pipelineRemoved distGeo d canonical candidates))

/-! ## The synthetic datum engine (`tools/datum.ts`)

`NaN` (the mean of an empty extrema list) is modelled by `none`. -/

/-- A named harmonic constituent. -/
structure HarmonicConstituent where
  name : String
  amplitude : ℚ
  phase : ℚ
deriving DecidableEq, Repr

/-- The named datums record returned by the engine. -/
structure Datums where
  MHHW : Option ℚ
  MHW : Option ℚ
  MSL : Option ℚ
  MTL : Option ℚ
  MLW : Option ℚ
  MLLW : Option ℚ
  LAT : Option ℚ
deriving DecidableEq, Repr

/-- The result record of `computeDatums`. -/
structure TidalDatumsResult where
  epochStart : ℚ
  epochEnd : ℚ
  lengthYears : ℚ
  timeFidelity : ℚ
  tidalDayHours : ℚ
  datums : Datums
deriving DecidableEq, Repr

/-- `Math.round(num * 10^digits) / 10^digits`; JS `Math.round` is
`⌊x + 0.5⌋`. -/
def toFixed (num : ℚ) (digits : ℕ) : ℚ :=
  (⌊num * 10 ^ digits + 1/2⌋ : ℚ) / 10 ^ digits

/-- `arr.length ? arr.reduce((s, v) => s + v, 0) / arr.length : NaN`. -/
def mean (arr : List ℚ) : Option ℚ :=
  if arr.length = 0 then none else some (arr.sum / arr.length)

/-- Addition with `NaN` propagation. -/
def optAdd : Option ℚ → Option ℚ → Option ℚ
  | some x, some y => some (x + y)
  | _, _ => none

/-- The maximum of a list (`none` on empty, matching `Math.max()` being
degenerate there). -/
def listMax : List ℚ → Option ℚ
  | [] => none
  | h :: t => some (t.foldl max h)

/-- `Math.min(...heights)`; `none` on the (unreachable) empty list. -/
def listMin : List ℚ → Option ℚ
  | [] => none
  | h :: t => some (t.foldl min h)

/-- The ascending numeric sort callback `(a, b) => a - b` as a boolean `le`. -/
def ratLe (a b : ℚ) : Bool := decide (a ≤ b)

/-- `while (idx < times.length && times[idx].getTime() < bound) idx++`. -/
def advanceIdx (times : List ℚ) (bound : ℚ) (idx : ℕ) : ℕ :=
  if h : idx < times.length ∧ times.getD idx 0 < bound then
    advanceIdx times bound (idx + 1)
  else idx
termination_by times.length - idx
decreasing_by
  exact Nat.sub_succ_lt_self _ _ h.1

/-- The interior scan of one tidal-day window
(`for (let i = idxStart + 1; i < idxEnd - 1; i++)`), classifying highs
(`≥` both neighbors, `>` at least one) and lows symmetrically; returns
(highs, lows) in scan order. -/
def scanInterior (heights : List ℚ) (i stop : ℕ) : List ℚ × List ℚ :=
  if h : i < stop then
    let hPrev := heights.getD (i - 1) 0
    let hCurr := heights.getD i 0
    let hNext := heights.getD (i + 1) 0
    let rest := scanInterior heights (i + 1) stop
    if hCurr ≥ hPrev ∧ hCurr ≥ hNext ∧ (hCurr > hPrev ∨ hCurr > hNext) then
      (hCurr :: rest.1, rest.2)
    else if hCurr ≤ hPrev ∧ hCurr ≤ hNext ∧ (hCurr < hPrev ∨ hCurr < hNext) then
      (rest.1, hCurr :: rest.2)
    else rest
  else ([], [])
termination_by stop - i
decreasing_by
  exact Nat.sub_succ_lt_self _ _ h

/-- The tidal-day `while` loop, accumulating
`(allHighs, allLows, higherHighs, lowerLows)`.  The loop of the source
terminates for a positive tidal day; `fuel` bounds its iteration count. -/
def dayLoop (times heights : List ℚ) (tidalDayMs lastTime : ℚ) :
    ℕ → ℚ → ℕ → List ℚ × List ℚ × List ℚ × List ℚ →
    List ℚ × List ℚ × List ℚ × List ℚ
  | 0, _, _, acc => acc
  | fuel + 1, dayStart, idx, acc =>
    if dayStart < lastTime then
      let dayEnd := dayStart + tidalDayMs
      let idxEnd := advanceIdx times dayEnd idx
      let acc1 :=
        if idxEnd - idx ≥ 3 then
          let scanned := scanInterior heights (idx + 1) (idxEnd - 1)
          let acc2 :=
            if scanned.1.isEmpty then acc
            else (acc.1 ++ scanned.1, acc.2.1,
              acc.2.2.1 ++ [(scanned.1.mergeSort ratLe).getLastD 0], acc.2.2.2)
          if scanned.2.isEmpty then acc2
          else (acc2.1, acc2.2.1 ++ scanned.2, acc2.2.2.1,
            acc2.2.2.2 ++ [(scanned.2.mergeSort ratLe).headD 0])
        else acc
      dayLoop times heights tidalDayMs lastTime fuel dayEnd
        (advanceIdx times dayEnd idxEnd) acc1
    else acc

/-- The four extrema lists of a series:
(all highs, all lows, higher highs, lower lows). -/
def extremaLists (times heights : List ℚ) (tidalDayHours : ℚ) :
    List ℚ × List ℚ × List ℚ × List ℚ :=
  let tidalDayMs := tidalDayHours * 60 * 60 * 1000
  let firstTime := times.headD 0
  let lastTime := times.getLastD 0
  dayLoop times heights tidalDayMs lastTime
    ((⌊(lastTime - firstTime) / tidalDayMs⌋).toNat + 1) firstTime 0
    ([], [], [], [])

/-- `computeDatumsFromTimeline` from `tools/datum.ts`. -/
def computeDatumsFromTimeline (times heights : List ℚ) (tidalDayHours : ℚ) :
    Except String Datums :=
  if times.length = 0 ∨ times.length ≠ heights.length then
    .error "times and heights must be non-empty and of equal length"
  else
    let ex := extremaLists times heights tidalDayHours
    let mhw := mean ex.1
    let mlw := mean ex.2.1
    .ok {
      MHHW := (mean ex.2.2.1).map (toFixed · 3)
      MHW := mhw.map (toFixed · 3)
      MSL := (mean heights).map (toFixed · 3)
      MTL := (optAdd mhw mlw).map (fun s => toFixed (s / 2) 3)
      MLW := mlw.map (toFixed · 3)
      MLLW := (mean ex.2.2.2).map (toFixed · 3)
      LAT := (listMin heights).map (toFixed · 3) }

/-- `365.2425 * 24 * 60 * 60 * 1000`. -/
def YEAR_MS : ℚ := 365.2425 * 24 * 60 * 60 * 1000

/-- `19 * YEAR_MS`. -/
def NINETEEN_YEARS : ℚ := 19 * YEAR_MS

/-- `resolveEpoch` from `tools/datum.ts`; `now` is the timestamp of
`new Date()`, and the optional spec fields default to `now` and
`end - NINETEEN_YEARS`. -/
def resolveEpoch (now : ℚ) (startSpec endSpec : Option ℚ) : ℚ × ℚ × ℚ :=
  let e := endSpec.getD now
  let s := startSpec.getD (e - NINETEEN_YEARS)
  let lengthYears := (e - s) / YEAR_MS
  if lengthYears > 19 then (e - NINETEEN_YEARS, e, 19) else (s, e, lengthYears)

/-- `computeDatums` from `tools/datum.ts`.  Modelled from the spec: the
external `@neaps/tide-predictor` (out of scope, §1/§6) is a deterministic
black box `gen start end stepSeconds ↦ [(timestamp, height)]` failing on an
empty constituent list (§4.3: "Fails with an input error if the constituent
list is empty"). -/
def computeDatums (gen : ℚ → ℚ → ℚ → List (ℚ × ℚ))
    (constituents : List HarmonicConstituent) (now : ℚ)
    (startSpec endSpec : Option ℚ) (stepHours tidalDayHours : ℚ) :
    Except String TidalDatumsResult :=
  if constituents.isEmpty then
    .error "tide predictor requires a non-empty constituent list"
  else
    let r := resolveEpoch now startSpec endSpec
    let timeFidelity := stepHours * 60 * 60
    let timeline := gen r.1 r.2.1 timeFidelity
    let times := timeline.map Prod.fst
    let heights := timeline.map Prod.snd
    (computeDatumsFromTimeline times heights tidalDayHours).map (fun dat =>
      { epochStart := r.1, epochEnd := r.2.1, lengthYears := r.2.2,
        timeFidelity := timeFidelity, tidalDayHours := tidalDayHours,
        datums := dat })

/-- The source default `tidalDayHours = 24.8333333`. -/
def DEFAULT_TIDAL_DAY_HOURS : ℚ := 24.8333333

/-! ### Specification-side window decomposition (for relating the
accumulating loop to per-window extrema) -/

/-- The (idxStart, idxEnd) index ranges of the executed tidal-day windows. -/
def windowRangesFrom (times : List ℚ) (tidalDayMs lastTime : ℚ) :
    ℕ → ℚ → ℕ → List (ℕ × ℕ)
  | 0, _, _ => []
  | fuel + 1, dayStart, idx =>
    if dayStart < lastTime then
      let idxEnd := advanceIdx times (dayStart + tidalDayMs) idx
      (idx, idxEnd) ::
        windowRangesFrom times tidalDayMs lastTime fuel (dayStart + tidalDayMs)
          (advanceIdx times (dayStart + tidalDayMs) idxEnd)
    else []

/-- The window ranges of a whole series. -/
def windowRanges (times : List ℚ) (tidalDayHours : ℚ) : List (ℕ × ℕ) :=
  let tidalDayMs := tidalDayHours * 60 * 60 * 1000
  windowRangesFrom times tidalDayMs (times.getLastD 0)
    ((⌊((times.getLastD 0) - times.headD 0) / tidalDayMs⌋).toNat + 1)
    (times.headD 0) 0

/-- The highs of one window (empty when the window has fewer than 3 samples). -/
def windowHighs (heights : List ℚ) (r : ℕ × ℕ) : List ℚ :=
  if r.2 - r.1 ≥ 3 then (scanInterior heights (r.1 + 1) (r.2 - 1)).1 else []

/-- The lows of one window. -/
def windowLows (heights : List ℚ) (r : ℕ × ℕ) : List ℚ :=
  if r.2 - r.1 ≥ 3 then (scanInterior heights (r.1 + 1) (r.2 - 1)).2 else []

/-- All highs of the series, window by window. -/
def seriesHighs (times heights : List ℚ) (tidalDayHours : ℚ) : List ℚ :=
  (windowRanges times tidalDayHours).flatMap (windowHighs heights)

/-- All lows of the series. -/
def seriesLows (times heights : List ℚ) (tidalDayHours : ℚ) : List ℚ :=
  (windowRanges times tidalDayHours).flatMap (windowLows heights)

/-- The per-window higher highs (the maximum of each window with highs). -/
def seriesHigherHighs (times heights : List ℚ) (tidalDayHours : ℚ) : List ℚ :=
  (windowRanges times tidalDayHours).filterMap
    (fun r => listMax (windowHighs heights r))

/-- The per-window lower lows. -/
def seriesLowerLows (times heights : List ℚ) (tidalDayHours : ℚ) : List ℚ :=
  (windowRanges times tidalDayHours).filterMap
    (fun r => listMin (windowLows heights r))

/-- All seven values of a datums record. -/
def datumValues (dat : Datums) : List (Option ℚ) :=
  [dat.MHHW, dat.MHW, dat.MSL, dat.MTL, dat.MLW, dat.MLLW, dat.LAT]

/-! ### Concrete stations and distances used in examples -/

/-- Epoch 1990-01-01 … 2010-01-01 (millisecond timestamps; exactly 20
Julian years). -/
def epoch20yr : Epoch := ⟨631152000000, 1262304000000⟩

/-- Epoch 2015-01-01 … 2020-01-01 (about 5 years). -/
def epoch5yr : Epoch := ⟨1420070400000, 1577836800000⟩

/-- The spec §8 example: a TICON candidate at (44.000, −67.000) observed
1990–2010. -/
def ticonLong : Station :=
  { latitude := 44, longitude := -67, disclaimers := none,
    source := ⟨"eastport-240-usa-meds"⟩, epoch := some epoch20yr }

/-- The spec §8 example: a TICON candidate at (44.0003, −67.0003) observed
2015–2020. -/
def ticonShort : Station :=
  { latitude := 44.0003, longitude := -67.0003, disclaimers := none,
    source := ⟨"eastport-241-usa-meds"⟩, epoch := some epoch5yr }

/-- A distance function agreeing with the haversine distance between the two
§8 example stations: ≈33.5 m = 0.0335 km apart (0 on equal coordinates). -/
def exDist (lat1 lon1 lat2 lon2 : ℚ) : ℚ :=
  if lat1 = lat2 ∧ lon1 = lon2 then 0 else 335/10000

/-- Chain counterexample, coordinate 0, 5-year epoch. -/
def chainA : Station :=
  { latitude := 0, longitude := 0, disclaimers := none,
    source := ⟨"p0-x"⟩, epoch := some epoch5yr }

/-- Chain counterexample, coordinate 0.4, 5-year epoch. -/
def chainB : Station :=
  { latitude := 4/10, longitude := 0, disclaimers := none,
    source := ⟨"p1-x"⟩, epoch := some epoch5yr }

/-- Chain counterexample, coordinate 0.2, 20-year epoch. -/
def chainC : Station :=
  { latitude := 2/10, longitude := 0, disclaimers := none,
    source := ⟨"p2-x"⟩, epoch := some epoch20yr }

/-- A concrete distance function for the chain examples (squared Euclidean
distance on the coordinate plane).  The pipeline only compares distances to
fixed thresholds, and the three chain stations realise the
within/within/beyond threshold pattern of three stations spaced ≈40 m apart
along one meridian under the haversine distance. -/
def chainDist (lat1 lon1 lat2 lon2 : ℚ) : ℚ :=
  (lat1 - lat2) * (lat1 - lat2) + (lon1 - lon2) * (lon1 - lon2)

/-- A station with no epoch and no disclaimers. -/
def stNoEpoch : Station :=
  { latitude := 0, longitude := 0, disclaimers := none,
    source := ⟨"z-y"⟩, epoch := none }

/-- A five-sample hourly series of timestamps (milliseconds). -/
def witTimes : List ℚ := [0, 3600000, 7200000, 10800000, 14400000]

/-- Heights for the five-sample series: two interior highs, one interior low. -/
def witHeights : List ℚ := [0, 1, 0, 1, 0]

theorem localeCompare_neg_iff {s t : String} : localeCompare s t < 0 ↔ s < t := by
  unfold localeCompare
  rcases lt_trichotomy s t with h | h | h
  · simp [h, not_lt.mpr (le_of_lt h)]
  · simp [h, lt_irrefl]
  · simp [h, not_lt.mpr (le_of_lt h), lt_asymm h]

theorem localeCompare_eq_zero_iff {s t : String} : localeCompare s t = 0 ↔ s = t := by
  unfold localeCompare
  rcases lt_trichotomy s t with h | h | h
  · simp [h, ne_of_lt h]
  · simp [h, lt_irrefl]
  · simp [h, not_lt.mpr (le_of_lt h), lt_asymm h, (ne_of_lt h).symm]

theorem localeCompare_pos_iff {s t : String} : 0 < localeCompare s t ↔ t < s := by
  unfold localeCompare
  rcases lt_trichotomy s t with h | h | h
  · simp [h, lt_asymm h]
  · simp [h, lt_irrefl]
  · simp [h, not_lt.mpr (le_of_lt h), lt_asymm h]

theorem compareStationPriority_of_flags_ne {a b : Station}
    (h1 : hasQualityIssues a.disclaimers ≠ hasQualityIssues b.disclaimers) :
    compareStationPriority a b =
      (if hasQualityIssues a.disclaimers then 1 else -1) := by
  simp only [compareStationPriority]
  rw [if_pos h1]

theorem compareStationPriority_of_years_ne {a b : Station}
    (h1 : hasQualityIssues a.disclaimers = hasQualityIssues b.disclaimers)
    (h2 : epochYears a.epoch ≠ epochYears b.epoch) :
    compareStationPriority a b = epochYears b.epoch - epochYears a.epoch := by
  simp only [compareStationPriority]
  rw [if_neg (not_not_intro h1), if_pos h2]

theorem compareStationPriority_of_rank_ne {a b : Station}
    (h1 : hasQualityIssues a.disclaimers = hasQualityIssues b.disclaimers)
    (h2 : epochYears a.epoch = epochYears b.epoch)
    (h3 : getSourcePriority a.source.id ≠ getSourcePriority b.source.id) :
    compareStationPriority a b =
      (getSourcePriority a.source.id : ℚ) - (getSourcePriority b.source.id : ℚ) := by
  simp only [compareStationPriority]
  rw [if_neg (not_not_intro h1), if_neg (not_not_intro h2), if_pos h3]

theorem compareStationPriority_of_rank_eq {a b : Station}
    (h1 : hasQualityIssues a.disclaimers = hasQualityIssues b.disclaimers)
    (h2 : epochYears a.epoch = epochYears b.epoch)
    (h3 : getSourcePriority a.source.id = getSourcePriority b.source.id) :
    compareStationPriority a b = localeCompare a.source.id b.source.id := by
  simp only [compareStationPriority]
  rw [if_neg (not_not_intro h1), if_neg (not_not_intro h2), if_neg (not_not_intro h3)]

theorem keyLt_iff_of_flags_ne {a b : Station}
    (h1 : hasQualityIssues a.disclaimers ≠ hasQualityIssues b.disclaimers) :
    keyLt a b ↔
      (hasQualityIssues a.disclaimers = false ∧ hasQualityIssues b.disclaimers = true) := by
  unfold keyLt
  constructor
  · rintro (h | ⟨hq, _⟩ | ⟨hq, _, _⟩ | ⟨hq, _, _, _⟩)
    · exact h
    · exact absurd hq h1
    · exact absurd hq h1
    · exact absurd hq h1
  · intro h
    exact Or.inl h

theorem keyLt_iff_of_flags_eq {a b : Station}
    (h1 : hasQualityIssues a.disclaimers = hasQualityIssues b.disclaimers) :
    keyLt a b ↔
      (epochYears b.epoch < epochYears a.epoch ∨
        (epochYears a.epoch = epochYears b.epoch ∧
          (getSourcePriority a.source.id < getSourcePriority b.source.id ∨
            (getSourcePriority a.source.id = getSourcePriority b.source.id ∧
              a.source.id < b.source.id)))) := by
  unfold keyLt
  constructor
  · rintro (⟨hx, hy⟩ | ⟨_, hy⟩ | ⟨_, hy, hp⟩ | ⟨_, hy, hp, hi⟩)
    · rw [h1] at hx; rw [hx] at hy; exact absurd hy (by simp)
    · exact Or.inl hy
    · exact Or.inr ⟨hy, Or.inl hp⟩
    · exact Or.inr ⟨hy, Or.inr ⟨hp, hi⟩⟩
  · rintro (hy | ⟨hy, hp | ⟨hp, hi⟩⟩)
    · exact Or.inr (Or.inl ⟨h1, hy⟩)
    · exact Or.inr (Or.inr (Or.inl ⟨h1, hy, hp⟩))
    · exact Or.inr (Or.inr (Or.inr ⟨h1, hy, hp, hi⟩))

theorem compareStationPriority_neg_iff {a b : Station} :
    compareStationPriority a b < 0 ↔ keyLt a b := by
  by_cases h1 : hasQualityIssues a.disclaimers = hasQualityIssues b.disclaimers
  · rw [keyLt_iff_of_flags_eq h1]
    by_cases h2 : epochYears a.epoch = epochYears b.epoch
    · by_cases h3 : getSourcePriority a.source.id = getSourcePriority b.source.id
      · rw [compareStationPriority_of_rank_eq h1 h2 h3, localeCompare_neg_iff]
        constructor
        · intro h; exact Or.inr ⟨h2, Or.inr ⟨h3, h⟩⟩
        · rintro (hy | ⟨_, hp | ⟨_, hi⟩⟩)
          · exact absurd hy (by rw [h2]; exact lt_irrefl _)
          · exact absurd hp (by rw [h3]; exact lt_irrefl _)
          · exact hi
      · rw [compareStationPriority_of_rank_ne h1 h2 h3]
        constructor
        · intro h
          exact Or.inr ⟨h2, Or.inl (by exact_mod_cast sub_neg.mp h)⟩
        · rintro (hy | ⟨_, hp | ⟨hp, _⟩⟩)
          · exact absurd hy (by rw [h2]; exact lt_irrefl _)
          · exact sub_neg.mpr (by exact_mod_cast hp)
          · exact absurd hp h3
    · rw [compareStationPriority_of_years_ne h1 h2]
      constructor
      · intro h; exact Or.inl (sub_neg.mp h)
      · rintro (hy | ⟨hy, _⟩)
        · exact sub_neg.mpr hy
        · exact absurd hy h2
  · rw [keyLt_iff_of_flags_ne h1, compareStationPriority_of_flags_ne h1]
    cases hqa : hasQualityIssues a.disclaimers with
    | false =>
      have hqb : hasQualityIssues b.disclaimers = true := by
        rw [hqa] at h1
        cases hqb : hasQualityIssues b.disclaimers with
        | false => exact absurd hqb.symm h1
        | true => rfl
      simp only [hqa, hqb, Bool.false_eq_true, if_false]
      norm_num
    | true =>
      have hqb : hasQualityIssues b.disclaimers = false := by
        rw [hqa] at h1
        cases hqb : hasQualityIssues b.disclaimers with
        | false => rfl
        | true => exact absurd hqb.symm h1
      simp only [hqa, if_true]
      constructor
      · intro h; norm_num at h
      · rintro ⟨hq, _⟩; exact absurd hq (by simp)

theorem compareStationPriority_eq_zero_iff {a b : Station} :
    compareStationPriority a b = 0 ↔ keyEq a b := by
  unfold keyEq
  by_cases h1 : hasQualityIssues a.disclaimers = hasQualityIssues b.disclaimers
  · by_cases h2 : epochYears a.epoch = epochYears b.epoch
    · by_cases h3 : getSourcePriority a.source.id = getSourcePriority b.source.id
      · rw [compareStationPriority_of_rank_eq h1 h2 h3, localeCompare_eq_zero_iff]
        constructor
        · intro h; exact ⟨h1, h2, h3, h⟩
        · rintro ⟨_, _, _, h⟩; exact h
      · rw [compareStationPriority_of_rank_ne h1 h2 h3]
        constructor
        · intro h
          exact absurd (by exact_mod_cast sub_eq_zero.mp h) h3
        · rintro ⟨_, _, hp, _⟩; exact absurd hp h3
    · rw [compareStationPriority_of_years_ne h1 h2]
      constructor
      · intro h; exact absurd (sub_eq_zero.mp h).symm h2
      · rintro ⟨_, hy, _, _⟩; exact absurd hy h2
  · rw [compareStationPriority_of_flags_ne h1]
    constructor
    · intro h
      rcases Bool.dichotomy (hasQualityIssues a.disclaimers) with hqa | hqa <;>
        simp [hqa] at h
    · rintro ⟨hq, _⟩; exact absurd hq h1

theorem localeCompare_swap (s t : String) : localeCompare t s = -localeCompare s t := by
  unfold localeCompare
  rcases lt_trichotomy s t with h | h | h
  · rw [if_neg (lt_asymm h), if_pos h, if_pos h]; norm_num
  · rw [h]; simp [lt_irrefl]
  · rw [if_pos h, if_neg (lt_asymm h), if_pos h]

theorem compareStationPriority_swap (a b : Station) :
    compareStationPriority b a = -compareStationPriority a b := by
  by_cases h1 : hasQualityIssues a.disclaimers = hasQualityIssues b.disclaimers
  · by_cases h2 : epochYears a.epoch = epochYears b.epoch
    · by_cases h3 : getSourcePriority a.source.id = getSourcePriority b.source.id
      · rw [compareStationPriority_of_rank_eq h1 h2 h3,
          compareStationPriority_of_rank_eq h1.symm h2.symm h3.symm,
          localeCompare_swap]
      · rw [compareStationPriority_of_rank_ne h1 h2 h3,
          compareStationPriority_of_rank_ne h1.symm h2.symm (Ne.symm h3)]
        ring
    · rw [compareStationPriority_of_years_ne h1 h2,
        compareStationPriority_of_years_ne h1.symm (Ne.symm h2)]
      ring
  · rw [compareStationPriority_of_flags_ne h1,
      compareStationPriority_of_flags_ne (Ne.symm h1)]
    cases hqa : hasQualityIssues a.disclaimers with
    | false =>
      have hqb : hasQualityIssues b.disclaimers = true := by
        rw [hqa] at h1
        cases hqb : hasQualityIssues b.disclaimers with
        | false => exact absurd hqb.symm h1
        | true => rfl
      rw [hqb]; norm_num
    | true =>
      have hqb : hasQualityIssues b.disclaimers = false := by
        rw [hqa] at h1
        cases hqb : hasQualityIssues b.disclaimers with
        | false => rfl
        | true => exact absurd hqb.symm h1
      rw [hqb]; norm_num

theorem compareStationPriority_pos_iff {a b : Station} :
    0 < compareStationPriority a b ↔ keyLt b a := by
  rw [← compareStationPriority_neg_iff (a := b) (b := a),
    compareStationPriority_swap a b]
  constructor
  · intro h; linarith
  · intro h; linarith

theorem compareStationPriority_self (a : Station) :
    compareStationPriority a a = 0 :=
  compareStationPriority_eq_zero_iff.mpr ⟨rfl, rfl, rfl, rfl⟩

theorem keyLt_trans {a b c : Station} (h1 : keyLt a b) (h2 : keyLt b c) :
    keyLt a c := by
  rcases h1 with ⟨ha1, ha2⟩ | ⟨ha1, ha2⟩ | ⟨ha1, ha2, ha3⟩ | ⟨ha1, ha2, ha3, ha4⟩ <;>
    rcases h2 with ⟨hb1, hb2⟩ | ⟨hb1, hb2⟩ | ⟨hb1, hb2, hb3⟩ | ⟨hb1, hb2, hb3, hb4⟩
  · rw [ha2] at hb1; exact absurd hb1 (by simp)
  · exact Or.inl ⟨ha1, hb1 ▸ ha2⟩
  · exact Or.inl ⟨ha1, hb1 ▸ ha2⟩
  · exact Or.inl ⟨ha1, hb1 ▸ ha2⟩
  · exact Or.inl ⟨ha1 ▸ hb1, hb2⟩
  · exact Or.inr (Or.inl ⟨ha1.trans hb1, lt_trans hb2 ha2⟩)
  · exact Or.inr (Or.inl ⟨ha1.trans hb1, hb2 ▸ ha2⟩)
  · exact Or.inr (Or.inl ⟨ha1.trans hb1, hb2 ▸ ha2⟩)
  · exact Or.inl ⟨ha1 ▸ hb1, hb2⟩
  · exact Or.inr (Or.inl ⟨ha1.trans hb1, ha2 ▸ hb2⟩)
  · exact Or.inr (Or.inr (Or.inl ⟨ha1.trans hb1, ha2.trans hb2, lt_trans ha3 hb3⟩))
  · exact Or.inr (Or.inr (Or.inl ⟨ha1.trans hb1, ha2.trans hb2, hb3 ▸ ha3⟩))
  · exact Or.inl ⟨ha1 ▸ hb1, hb2⟩
  · exact Or.inr (Or.inl ⟨ha1.trans hb1, ha2 ▸ hb2⟩)
  · exact Or.inr (Or.inr (Or.inl ⟨ha1.trans hb1, ha2.trans hb2, ha3 ▸ hb3⟩))
  · exact Or.inr (Or.inr (Or.inr ⟨ha1.trans hb1, ha2.trans hb2, ha3.trans hb3,
      lt_trans ha4 hb4⟩))

theorem keyEq_trans {a b c : Station} (h1 : keyEq a b) (h2 : keyEq b c) :
    keyEq a c := by
  obtain ⟨x1, x2, x3, x4⟩ := h1
  obtain ⟨y1, y2, y3, y4⟩ := h2
  exact ⟨x1.trans y1, x2.trans y2, x3.trans y3, x4.trans y4⟩

theorem keyLt_of_keyLt_keyEq {a b c : Station} (h1 : keyLt a b) (h2 : keyEq b c) :
    keyLt a c := by
  obtain ⟨y1, y2, y3, y4⟩ := h2
  rcases h1 with ⟨ha1, ha2⟩ | ⟨ha1, ha2⟩ | ⟨ha1, ha2, ha3⟩ | ⟨ha1, ha2, ha3, ha4⟩
  · exact Or.inl ⟨ha1, y1 ▸ ha2⟩
  · exact Or.inr (Or.inl ⟨ha1.trans y1, y2 ▸ ha2⟩)
  · exact Or.inr (Or.inr (Or.inl ⟨ha1.trans y1, ha2.trans y2, y3 ▸ ha3⟩))
  · exact Or.inr (Or.inr (Or.inr ⟨ha1.trans y1, ha2.trans y2, ha3.trans y3, y4 ▸ ha4⟩))

theorem keyLt_of_keyEq_keyLt {a b c : Station} (h1 : keyEq a b) (h2 : keyLt b c) :
    keyLt a c := by
  obtain ⟨x1, x2, x3, x4⟩ := h1
  rcases h2 with ⟨hb1, hb2⟩ | ⟨hb1, hb2⟩ | ⟨hb1, hb2, hb3⟩ | ⟨hb1, hb2, hb3, hb4⟩
  · exact Or.inl ⟨x1.trans hb1, hb2⟩
  · exact Or.inr (Or.inl ⟨x1.trans hb1, x2 ▸ hb2⟩)
  · exact Or.inr (Or.inr (Or.inl ⟨x1.trans hb1, x2.trans hb2, x3 ▸ hb3⟩))
  · exact Or.inr (Or.inr (Or.inr ⟨x1.trans hb1, x2.trans hb2, x3.trans hb3, x4 ▸ hb4⟩))

theorem compareStationPriority_le_trans {a b c : Station}
    (h1 : compareStationPriority a b ≤ 0) (h2 : compareStationPriority b c ≤ 0) :
    compareStationPriority a c ≤ 0 := by
  rcases lt_or_eq_of_le h1 with h1 | h1 <;> rcases lt_or_eq_of_le h2 with h2 | h2
  · exact le_of_lt (compareStationPriority_neg_iff.mpr
      (keyLt_trans (compareStationPriority_neg_iff.mp h1)
        (compareStationPriority_neg_iff.mp h2)))
  · exact le_of_lt (compareStationPriority_neg_iff.mpr
      (keyLt_of_keyLt_keyEq (compareStationPriority_neg_iff.mp h1)
        (compareStationPriority_eq_zero_iff.mp h2)))
  · exact le_of_lt (compareStationPriority_neg_iff.mpr
      (keyLt_of_keyEq_keyLt (compareStationPriority_eq_zero_iff.mp h1)
        (compareStationPriority_neg_iff.mp h2)))
  · exact le_of_eq (compareStationPriority_eq_zero_iff.mpr
      (keyEq_trans (compareStationPriority_eq_zero_iff.mp h1)
        (compareStationPriority_eq_zero_iff.mp h2)))

theorem compareStationPriority_le_total (a b : Station) :
    compareStationPriority a b ≤ 0 ∨ compareStationPriority b a ≤ 0 := by
  rcases le_or_lt (compareStationPriority a b) 0 with h | h
  · exact Or.inl h
  · exact Or.inr (le_of_lt (compareStationPriority_neg_iff.mpr
      (compareStationPriority_pos_iff.mp h)))

theorem lookup_mem : ∀ {l : List (String × ℕ)} {k : String} {v : ℕ},
    l.lookup k = some v → (k, v) ∈ l := by
  intro l
  induction l with
  | nil => intro k v h; simp [List.lookup] at h
  | cons p t ih =>
    intro k v h
    obtain ⟨pk, pv⟩ := p
    rw [List.lookup] at h
    by_cases hk : (k == pk) = true
    · simp only [hk] at h
      injection h with h
      rw [List.mem_cons]
      exact Or.inl (by rw [eq_of_beq hk, h])
    · rw [Bool.not_eq_true] at hk
      simp only [hk] at h
      exact List.mem_cons_of_mem _ (ih h)

/-- Claim C2: `compareStationPriority` is a valid strict weak ordering on
station records: `compare(a,b) < 0` implies `compare(b,a) > 0`,
`compare(a,a) = 0`, strict preference is transitive, and incomparability
(`compare = 0`) is transitive, across the full four-rule chain. -/
theorem compareStationPriority_strict_weak_order (a b c : Station) :
    (compareStationPriority a b < 0 → 0 < compareStationPriority b a) ∧
    compareStationPriority a a = 0 ∧
    (compareStationPriority a b < 0 → compareStationPriority b c < 0 →
      compareStationPriority a c < 0) ∧
    (compareStationPriority a b = 0 → compareStationPriority b c = 0 →
      compareStationPriority a c = 0) := by
  refine ⟨?_, compareStationPriority_self a, ?_, ?_⟩
  · intro h
    exact compareStationPriority_pos_iff.mpr (compareStationPriority_neg_iff.mp h)
  · intro h1 h2
    exact compareStationPriority_neg_iff.mpr
      (keyLt_trans (compareStationPriority_neg_iff.mp h1)
        (compareStationPriority_neg_iff.mp h2))
  · intro h1 h2
    exact compareStationPriority_eq_zero_iff.mpr
      (keyEq_trans (compareStationPriority_eq_zero_iff.mp h1)
        (compareStationPriority_eq_zero_iff.mp h2))

theorem compareStationPriority_swo_witness :
    (compareStationPriority ticonLong ticonShort < 0 ∧
      compareStationPriority ticonShort stNoEpoch < 0) ∧
    compareStationPriority ticonLong stNoEpoch < 0 := by
  have h1 : compareStationPriority ticonLong ticonShort < 0 := by
    norm_num [compareStationPriority, hasQualityIssues, epochYears,
      JULIAN_YEAR_MS, ticonLong, ticonShort, epoch20yr, epoch5yr]
  have h2 : compareStationPriority ticonShort stNoEpoch < 0 := by
    norm_num [compareStationPriority, hasQualityIssues, epochYears,
      JULIAN_YEAR_MS, ticonShort, stNoEpoch, epoch5yr]
  exact ⟨⟨h1, h2⟩,
    (compareStationPriority_strict_weak_order ticonLong ticonShort stNoEpoch).2.2.1 h1 h2⟩

/-- Claim C9: `compareStationPriority` decides by the first differing rule
in the fixed order (quality caveat, longer observation period, lower source
rank, lexicographic source id), with unknown providers receiving the fixed
default rank strictly between the best (1) and worst (99) known ranks. -/
theorem compareStationPriority_rule_order :
    (∀ a b : Station, compareStationPriority a b < 0 ↔ keyLt a b) ∧
    (∀ a b : Station, compareStationPriority a b = 0 ↔ keyEq a b) ∧
    (∀ s : String, SOURCE_PRIORITY.lookup (getSourceSuffix s) = none →
      getSourcePriority s = DEFAULT_PRIORITY) ∧
    (∀ (s : String) (v : ℕ), SOURCE_PRIORITY.lookup (getSourceSuffix s) = some v →
      1 ≤ v ∧ v ≤ 99) ∧
    getSourcePriority "abashiri-347-jpn-uhslc_fd" = 1 ∧
    getSourcePriority "x-da_sat" = 99 ∧
    1 < DEFAULT_PRIORITY ∧ DEFAULT_PRIORITY < 99 := by
  refine ⟨fun a b => compareStationPriority_neg_iff,
    fun a b => compareStationPriority_eq_zero_iff, ?_, ?_,
    by decide, by decide, by decide, by decide⟩
  · intro s h
    unfold getSourcePriority
    rw [h]
    rfl
  · intro s v h
    have hb : ∀ p ∈ SOURCE_PRIORITY, 1 ≤ p.2 ∧ p.2 ≤ 99 := by decide
    exact hb _ (lookup_mem h)

theorem compareStationPriority_rule_order_witness :
    SOURCE_PRIORITY.lookup (getSourceSuffix "made-up-provider") = none ∧
    getSourcePriority "made-up-provider" = DEFAULT_PRIORITY := by
  have h : SOURCE_PRIORITY.lookup (getSourceSuffix "made-up-provider") = none := by
    decide
  exact ⟨h, compareStationPriority_rule_order.2.2.1 "made-up-provider" h⟩

/-- Claim C10: a station is quality-flagged iff its disclaimers field is
present and contains the exact substring "quality control issues"; a
station with no disclaimers is never treated as flagged, either by the
comparator (rule 1, `hasQualityIssues`) or by the quality-superseded
exclusion phase (`step2Body`), whose check agrees with `hasQualityIssues`. -/
theorem hasQualityIssues_iff_substring :
    (∀ dOpt : Option String, hasQualityIssues dOpt = true ↔
      ∃ s, dOpt = some s ∧ "quality control issues".data <:+: s.data) ∧
    hasQualityIssues none = false ∧
    (∀ c : Station, c.disclaimers = none → disclaimersFlag c = false) ∧
    (∀ c : Station, disclaimersFlag c = hasQualityIssues c.disclaimers) ∧
    (∀ (dd : ℚ → ℚ → ℚ → ℚ → ℚ) (all : List Station) (rem : List String)
      (c : Station), c.disclaimers = none → step2Body dd all rem c = rem) := by
  refine ⟨?_, rfl, ?_, ?_, ?_⟩
  · intro dOpt
    cases dOpt with
    | none => simp [hasQualityIssues]
    | some s => simp [hasQualityIssues, jsIncludes]
  · intro c h
    simp [disclaimersFlag, h]
  · intro c
    cases hd : c.disclaimers with
    | none => simp [disclaimersFlag, hasQualityIssues, hd]
    | some s => simp [disclaimersFlag, hasQualityIssues, hd]
  · intro dd all rem c h
    unfold step2Body
    by_cases hm : candidateId c ∈ rem
    · rw [if_pos hm]
    · rw [if_neg hm, if_pos (by simp [disclaimersFlag, h])]

theorem hasQualityIssues_iff_substring_witness :
    stNoEpoch.disclaimers = none ∧
    step2Body chainDist [] [] stNoEpoch = [] := by
  have h : stNoEpoch.disclaimers = none := rfl
  exact ⟨h, hasQualityIssues_iff_substring.2.2.2.2 chainDist [] [] stNoEpoch h⟩

/-! ## Pipeline lemmas -/

theorem mem_insert_of_mem {x y : String} {l : List String} (h : x ∈ l) :
    x ∈ l.insert y :=
  List.mem_insert_iff.mpr (Or.inr h)

theorem mem_foldl_insert (f : Station → String) (l : List Station)
    (R : List String) (x : String) :
    x ∈ l.foldl (fun r o => r.insert (f o)) R ↔ x ∈ R ∨ ∃ o ∈ l, f o = x := by
  induction l generalizing R with
  | nil => simp
  | cons a t ih =>
    rw [List.foldl_cons, ih]
    simp only [List.mem_insert_iff, List.exists_mem_cons_iff]
    tauto

theorem step1a_mono {l : List Station} {R : List String} {x : String}
    (h : x ∈ R) : x ∈ step1a l R := by
  induction l generalizing R with
  | nil => exact h
  | cons a t ih =>
    rw [step1a, List.foldl_cons]
    by_cases hc : getSourceSuffix a.source.id = "noaa"
    · rw [if_pos hc]
      exact ih (mem_insert_of_mem h)
    · rw [if_neg hc]
      exact ih h

theorem mem_step1a {l : List Station} {R : List String} {x : String} :
    x ∈ step1a l R ↔
      x ∈ R ∨ ∃ c ∈ l, getSourceSuffix c.source.id = "noaa" ∧ candidateId c = x := by
  induction l generalizing R with
  | nil => simp [step1a]
  | cons a t ih =>
    rw [step1a, List.foldl_cons]
    show x ∈ step1a t _ ↔ _
    rw [ih]
    simp only [List.exists_mem_cons_iff]
    by_cases hc : getSourceSuffix a.source.id = "noaa"
    · rw [if_pos hc]
      simp only [List.mem_insert_iff]
      constructor
      · rintro ((h | h) | h)
        · exact Or.inr (Or.inl ⟨hc, h.symm⟩)
        · exact Or.inl h
        · exact Or.inr (Or.inr h)
      · rintro (h | (⟨_, h⟩ | h))
        · exact Or.inl (Or.inr h)
        · exact Or.inl (Or.inl h.symm)
        · exact Or.inr h
    · rw [if_neg hc]
      constructor
      · rintro (h | h)
        · exact Or.inl h
        · exact Or.inr (Or.inr h)
      · rintro (h | (⟨h, _⟩ | h))
        · exact Or.inl h
        · exact absurd h hc
        · exact Or.inr h

theorem step1b_mono {dg : ℚ → ℚ → ℚ → ℚ → ℚ} {canon : List GeoStation}
    {l : List Station} {R : List String} {x : String} (h : x ∈ R) :
    x ∈ step1b dg canon l R := by
  induction l generalizing R with
  | nil => exact h
  | cons a t ih =>
    rw [step1b, List.foldl_cons]
    by_cases h1 : candidateId a ∈ R
    · rw [if_pos h1]; exact ih h
    · rw [if_neg h1]
      by_cases h2 : (nearNoaa dg canon a).length > 0
      · rw [if_pos h2]; exact ih (mem_insert_of_mem h)
      · rw [if_neg h2]; exact ih h

theorem mem_step1b {dg : ℚ → ℚ → ℚ → ℚ → ℚ} {canon : List GeoStation}
    {l : List Station} {R : List String} {x : String} :
    x ∈ step1b dg canon l R ↔
      x ∈ R ∨ ∃ c ∈ l, (nearNoaa dg canon c).length > 0 ∧ candidateId c = x := by
  induction l generalizing R with
  | nil => simp [step1b]
  | cons a t ih =>
    rw [step1b, List.foldl_cons]
    show x ∈ step1b dg canon t _ ↔ _
    simp only [List.exists_mem_cons_iff]
    by_cases h1 : candidateId a ∈ R
    · rw [if_pos h1, ih]
      constructor
      · rintro (h | h)
        · exact Or.inl h
        · exact Or.inr (Or.inr h)
      · rintro (h | (⟨_, h⟩ | h))
        · exact Or.inl h
        · exact Or.inl (h ▸ h1)
        · exact Or.inr h
    · rw [if_neg h1]
      by_cases h2 : (nearNoaa dg canon a).length > 0
      · rw [if_pos h2, ih]
        simp only [List.mem_insert_iff]
        constructor
        · rintro ((h | h) | h)
          · exact Or.inr (Or.inl ⟨h2, h.symm⟩)
          · exact Or.inl h
          · exact Or.inr (Or.inr h)
        · rintro (h | (⟨_, h⟩ | h))
          · exact Or.inl (Or.inr h)
          · exact Or.inl (Or.inl h.symm)
          · exact Or.inr h
      · rw [if_neg h2, ih]
        constructor
        · rintro (h | h)
          · exact Or.inl h
          · exact Or.inr (Or.inr h)
        · rintro (h | (⟨h, _⟩ | h))
          · exact Or.inl h
          · exact absurd h h2
          · exact Or.inr h

theorem step2Body_mono {d : ℚ → ℚ → ℚ → ℚ → ℚ} {all : List Station}
    {R : List String} {a : Station} {x : String} (h : x ∈ R) :
    x ∈ step2Body d all R a := by
  unfold step2Body
  by_cases h1 : candidateId a ∈ R
  · rw [if_pos h1]; exact h
  · rw [if_neg h1]
    by_cases h2 : (!(disclaimersFlag a)) = true
    · rw [if_pos h2]; exact h
    · rw [if_neg h2]
      by_cases h3 : step2HasBetterNeighbor d all R a = true
      · rw [if_pos h3]; exact mem_insert_of_mem h
      · rw [if_neg h3]; exact h

theorem step2Aux_mono {d : ℚ → ℚ → ℚ → ℚ → ℚ} {all l : List Station}
    {R : List String} {x : String} (h : x ∈ R) : x ∈ step2Aux d all l R := by
  induction l generalizing R with
  | nil => exact h
  | cons a t ih =>
    rw [step2Aux, List.foldl_cons]
    exact ih (step2Body_mono h)

theorem step2Aux_noAdd {d : ℚ → ℚ → ℚ → ℚ → ℚ} {all l : List Station}
    {R : List String}
    (H : ∀ c ∈ l, disclaimersFlag c = true → ∀ o ∈ all,
      candidateId o ≠ candidateId c → disclaimersFlag o = false →
      ¬(d c.latitude c.longitude o.latitude o.longitude ≤ 1/10)) :
    step2Aux d all l R = R := by
  induction l generalizing R with
  | nil => rfl
  | cons a t ih =>
    rw [step2Aux, List.foldl_cons]
    have hbody : step2Body d all R a = R := by
      unfold step2Body
      by_cases h1 : candidateId a ∈ R
      · rw [if_pos h1]
      · rw [if_neg h1]
        by_cases h2 : (!(disclaimersFlag a)) = true
        · rw [if_pos h2]
        · rw [if_neg h2]
          have hflag : disclaimersFlag a = true := by
            revert h2
            cases disclaimersFlag a <;> simp
          have hany : step2HasBetterNeighbor d all R a = false := by
            unfold step2HasBetterNeighbor
            rw [List.any_eq_false]
            intro o ho
            simp only [Bool.and_eq_true, decide_eq_true_eq, Bool.not_eq_eq_eq_not,
              Bool.not_true, not_and]
            intro hcond
            obtain ⟨⟨hne, _⟩, hfo⟩ := hcond
            exact H a (List.mem_cons_self a t) hflag o ho hne hfo
          rw [if_neg (by rw [hany]; exact Bool.false_ne_true)]
    rw [hbody]
    exact ih (fun c hc => H c (List.mem_cons_of_mem _ hc))

theorem step2Aux_sound {d : ℚ → ℚ → ℚ → ℚ → ℚ} {all : List Station}
    {c o : Station} : ∀ {l : List Station} {R : List String},
    c ∈ l → disclaimersFlag c = true →
    candidateId c ∉ step2Aux d all l R →
    o ∈ all → candidateId o ≠ candidateId c → disclaimersFlag o = false →
    candidateId o ∉ step2Aux d all l R →
    ¬(d c.latitude c.longitude o.latitude o.longitude ≤ 1/10) := by
  intro l
  induction l with
  | nil => intro R hc; exact absurd hc (List.not_mem_nil c)
  | cons a t ih =>
    intro R hc hflagc hcr ho hne hflago hor hdist
    rw [step2Aux, List.foldl_cons] at hcr hor
    have hcr' : candidateId c ∉ step2Aux d all t (step2Body d all R a) := hcr
    have hor' : candidateId o ∉ step2Aux d all t (step2Body d all R a) := hor
    rcases List.mem_cons.mp hc with hca | hct
    · subst hca
      have hcR : candidateId c ∉ R := fun hm =>
        hcr' (step2Aux_mono (step2Body_mono hm))
      have hoR : candidateId o ∉ R := fun hm =>
        hor' (step2Aux_mono (step2Body_mono hm))
      have hany : step2HasBetterNeighbor d all R c = true := by
        unfold step2HasBetterNeighbor
        rw [List.any_eq_true]
        refine ⟨o, ho, ?_⟩
        simp only [Bool.and_eq_true, decide_eq_true_eq, Bool.not_eq_eq_eq_not,
          Bool.not_true]
        exact ⟨⟨⟨hne, hoR⟩, hflago⟩, hdist⟩
      have hbody : step2Body d all R c = R.insert (candidateId c) := by
        unfold step2Body
        rw [if_neg hcR, if_neg (by rw [hflagc]; simp), if_pos hany]
      rw [hbody] at hcr'
      exact hcr' (step2Aux_mono (List.mem_insert_iff.mpr (Or.inl rfl)))
    · exact ih hct hflagc hcr' ho hne hflago hor' hdist

theorem step3body_rem_mono {d : ℚ → ℚ → ℚ → ℚ → ℚ} {all : List Station}
    {rp : List String × List String} {a : Station} {x : String}
    (h : x ∈ rp.1) : x ∈ (step3body d all rp a).1 := by
  unfold step3body
  by_cases h1 : candidateId a ∈ rp.1 ∨ candidateId a ∈ rp.2
  · rw [if_pos h1]; exact h
  · rw [if_neg h1]
    by_cases h2 : (step3nearby d all rp.1 rp.2 a).isEmpty = true
    · simp only [h2, if_true]; exact h
    · simp only [h2, Bool.false_eq_true, if_false]
      cases hs : (a :: step3nearby d all rp.1 rp.2 a).mergeSort cmpLe with
      | nil => exact h
      | cons keep others =>
        simp only
        rw [show (fun r o => r.insert (candidateId o)) = fun r o =>
          List.insert (candidateId o) r from rfl]
        exact (mem_foldl_insert candidateId others rp.1 x).mpr (Or.inl h)

theorem step3Aux_rem_mono {d : ℚ → ℚ → ℚ → ℚ → ℚ} {all l : List Station}
    {rp : List String × List String} {x : String} (h : x ∈ rp.1) :
    x ∈ (step3Aux d all l rp).1 := by
  induction l generalizing rp with
  | nil => exact h
  | cons a t ih =>
    rw [step3Aux, List.foldl_cons]
    exact ih (step3body_rem_mono h)

theorem step3Aux_no_remove {d : ℚ → ℚ → ℚ → ℚ → ℚ} {all l : List Station}
    {R P : List String}
    (H : ∀ c ∈ l, ∀ o ∈ all, candidateId o ≠ candidateId c →
      ¬(d c.latitude c.longitude o.latitude o.longitude ≤ MIN_DISTANCE_TICON)) :
    (step3Aux d all l (R, P)).1 = R := by
  induction l generalizing P with
  | nil => rfl
  | cons a t ih =>
    rw [step3Aux, List.foldl_cons]
    by_cases h1 : candidateId a ∈ (R, P).1 ∨ candidateId a ∈ (R, P).2
    · rw [step3body, if_pos h1]
      exact ih (fun c hc => H c (List.mem_cons_of_mem _ hc))
    · have hnear : step3nearby d all R P a = [] := by
        unfold step3nearby
        rw [List.filter_eq_nil_iff]
        intro o ho
        simp only [Bool.and_eq_true, decide_eq_true_eq, not_and]
        intro hcond
        obtain ⟨⟨hne, _⟩, _⟩ := hcond
        exact H a (List.mem_cons_self a t) o ho hne
      rw [step3body, if_neg h1]
      simp only [hnear, List.isEmpty_nil, if_true]
      exact ih (fun c hc => H c (List.mem_cons_of_mem _ hc))

/-- Claim C1 (amended): deduplication is idempotent on a stable input in
the following sense: re-running the four phases on the pipeline's own
surviving set (same canonical set and distance functions) returns the
surviving set unchanged, provided no two distinct survivors lie within the
50 m mutual-duplicate threshold of each other.  Without that proviso,
phase 4's single-hop clustering can remove further candidates on a re-run
(see the counterexample). -/
theorem dedup_rerun_stable (dg d : ℚ → ℚ → ℚ → ℚ → ℚ) (canon : List GeoStation)
    (batch : List Station)
    (hsep : ∀ c ∈ surviving dg d canon batch, ∀ o ∈ surviving dg d canon batch,
      candidateId o ≠ candidateId c →
      ¬(d c.latitude c.longitude o.latitude o.longitude ≤ MIN_DISTANCE_TICON)) :
    surviving dg d canon (surviving dg d canon batch) =
      surviving dg d canon batch := by
  have hSmem : ∀ c ∈ surviving dg d canon batch,
      c ∈ batch ∧ candidateId c ∉ pipelineRemoved dg d canon batch := by
    intro c hc
    rw [surviving, List.mem_filter] at hc
    exact ⟨hc.1, of_decide_eq_true hc.2⟩
  have hchain1 : ∀ x, x ∈ step1a batch [] →
      x ∈ pipelineRemoved dg d canon batch := by
    intro x hx
    unfold pipelineRemoved step3 step2
    exact step3Aux_rem_mono (step2Aux_mono (step1b_mono hx))
  have hchain2 : ∀ x, x ∈ step1b dg canon batch (step1a batch []) →
      x ∈ pipelineRemoved dg d canon batch := by
    intro x hx
    unfold pipelineRemoved step3 step2
    exact step3Aux_rem_mono (step2Aux_mono hx)
  have hchain3 : ∀ x,
      x ∈ step2Aux d batch batch (step1b dg canon batch (step1a batch [])) →
      x ∈ pipelineRemoved dg d canon batch := by
    intro x hx
    unfold pipelineRemoved step3 step2
    exact step3Aux_rem_mono hx
  have hsuffix : ∀ c ∈ surviving dg d canon batch,
      getSourceSuffix c.source.id ≠ "noaa" := by
    intro c hc hno
    obtain ⟨hcb, hcr⟩ := hSmem c hc
    exact hcr (hchain1 _ (mem_step1a.mpr (Or.inr ⟨c, hcb, hno, rfl⟩)))
  have hnear : ∀ c ∈ surviving dg d canon batch,
      ¬((nearNoaa dg canon c).length > 0) := by
    intro c hc hlen
    obtain ⟨hcb, hcr⟩ := hSmem c hc
    exact hcr (hchain2 _ (mem_step1b.mpr (Or.inr ⟨c, hcb, hlen, rfl⟩)))
  have hq : ∀ c ∈ surviving dg d canon batch, disclaimersFlag c = true →
      ∀ o ∈ surviving dg d canon batch, candidateId o ≠ candidateId c →
      disclaimersFlag o = false →
      ¬(d c.latitude c.longitude o.latitude o.longitude ≤ 1/10) := by
    intro c hc hfc o ho hne hfo
    obtain ⟨hcb, hcr⟩ := hSmem c hc
    obtain ⟨hob, hor⟩ := hSmem o ho
    exact step2Aux_sound hcb hfc (fun hm => hcr (hchain3 _ hm)) hob hne hfo
      (fun hm => hor (hchain3 _ hm))
  have h1' : step1a (surviving dg d canon batch) [] = [] := by
    rw [List.eq_nil_iff_forall_not_mem]
    intro x hx
    rcases mem_step1a.mp hx with h | ⟨c, hc, hno, _⟩
    · exact absurd h (List.not_mem_nil x)
    · exact hsuffix c hc hno
  have h2' : step1b dg canon (surviving dg d canon batch) [] = [] := by
    rw [List.eq_nil_iff_forall_not_mem]
    intro x hx
    rcases mem_step1b.mp hx with h | ⟨c, hc, hlen, _⟩
    · exact absurd h (List.not_mem_nil x)
    · exact hnear c hc hlen
  have h3' : step2 d (surviving dg d canon batch) [] = [] := by
    unfold step2
    exact step2Aux_noAdd hq
  have h4' : (step3 d (surviving dg d canon batch) []).1 = [] := by
    unfold step3
    exact step3Aux_no_remove hsep
  have hrem : pipelineRemoved dg d canon (surviving dg d canon batch) = [] := by
    unfold pipelineRemoved
    rw [h1', h2', h3']
    exact h4'
  conv_lhs => rw [surviving]
  rw [hrem]
  simp

theorem dedup_rerun_stable_witness :
    (∀ c ∈ surviving chainDist chainDist [] [chainA, chainB],
      ∀ o ∈ surviving chainDist chainDist [] [chainA, chainB],
        candidateId o ≠ candidateId c →
        ¬(chainDist c.latitude c.longitude o.latitude o.longitude ≤
          MIN_DISTANCE_TICON)) ∧
    surviving chainDist chainDist []
        (surviving chainDist chainDist [] [chainA, chainB]) =
      surviving chainDist chainDist [] [chainA, chainB] := by
  have hs : surviving chainDist chainDist [] [chainA, chainB] = [chainA, chainB] := by
    norm_num +decide [surviving, pipelineRemoved, step1a, step1b, step2, step2Aux,
      step2Body, step2HasBetterNeighbor, step3, step3Aux, step3body, step3nearby,
      nearNoaa, near, around, aroundPairs, withinMax, candidateId, getSourceSuffix,
      disclaimersFlag, hasQualityIssues, jsIncludes, cmpLe, compareStationPriority,
      epochYears, JULIAN_YEAR_MS, localeCompare, getSourcePriority, SOURCE_PRIORITY,
      DEFAULT_PRIORITY, MIN_DISTANCE_TICON, MIN_DISTANCE_TO_NOAA, chainDist,
      chainA, chainB, epoch5yr, epoch20yr, List.foldl, List.insert,
      List.filter, List.any, List.mergeSort, List.isEmpty]
  have hsep : ∀ c ∈ surviving chainDist chainDist [] [chainA, chainB],
      ∀ o ∈ surviving chainDist chainDist [] [chainA, chainB],
        candidateId o ≠ candidateId c →
        ¬(chainDist c.latitude c.longitude o.latitude o.longitude ≤
          MIN_DISTANCE_TICON) := by
    rw [hs]
    intro c hc o ho hne
    rcases List.mem_cons.mp hc with rfl | hc
    · rcases List.mem_cons.mp ho with rfl | ho
      · exact absurd rfl hne
      · rcases List.mem_cons.mp ho with rfl | ho
        · norm_num [chainDist, chainA, chainB, MIN_DISTANCE_TICON]
        · exact absurd ho (List.not_mem_nil o)
    · rcases List.mem_cons.mp hc with rfl | hc
      · rcases List.mem_cons.mp ho with rfl | ho
        · norm_num [chainDist, chainA, chainB, MIN_DISTANCE_TICON]
        · rcases List.mem_cons.mp ho with rfl | ho
          · exact absurd rfl hne
          · exact absurd ho (List.not_mem_nil o)
      · exact absurd hc (List.not_mem_nil c)
  exact ⟨hsep, dedup_rerun_stable chainDist chainDist [] [chainA, chainB] hsep⟩

/-- Claim C1 counterexample: on the three-station chain batch (pairwise
distances within / within / beyond the 50 m threshold), the first run keeps
`[chainB, chainC]`, but re-running the four phases on that surviving set
removes `chainB` as well — the surviving set is not stable under
re-running, so deduplication is not idempotent in the claimed sense. -/
theorem dedup_rerun_counterexample :
    surviving chainDist chainDist [] [chainA, chainB, chainC] = [chainB, chainC] ∧
    surviving chainDist chainDist []
      (surviving chainDist chainDist [] [chainA, chainB, chainC]) = [chainC] ∧
    surviving chainDist chainDist []
        (surviving chainDist chainDist [] [chainA, chainB, chainC]) ≠
      surviving chainDist chainDist [] [chainA, chainB, chainC] := by
  have h1 : surviving chainDist chainDist [] [chainA, chainB, chainC] =
      [chainB, chainC] := by
    norm_num +decide [surviving, pipelineRemoved, step1a, step1b, step2, step2Aux,
      step2Body, step2HasBetterNeighbor, step3, step3Aux, step3body, step3nearby,
      nearNoaa, near, around, aroundPairs, withinMax, candidateId, getSourceSuffix,
      disclaimersFlag, hasQualityIssues, jsIncludes, cmpLe, compareStationPriority,
      epochYears, JULIAN_YEAR_MS, localeCompare, getSourcePriority, SOURCE_PRIORITY,
      DEFAULT_PRIORITY, MIN_DISTANCE_TICON, MIN_DISTANCE_TO_NOAA, chainDist,
      chainA, chainB, chainC, epoch5yr, epoch20yr, List.foldl, List.insert,
      List.filter, List.any, List.mergeSort, List.isEmpty]
  have h2 : surviving chainDist chainDist [] [chainB, chainC] = [chainC] := by
    norm_num +decide [surviving, pipelineRemoved, step1a, step1b, step2, step2Aux,
      step2Body, step2HasBetterNeighbor, step3, step3Aux, step3body, step3nearby,
      nearNoaa, near, around, aroundPairs, withinMax, candidateId, getSourceSuffix,
      disclaimersFlag, hasQualityIssues, jsIncludes, cmpLe, compareStationPriority,
      epochYears, JULIAN_YEAR_MS, localeCompare, getSourcePriority, SOURCE_PRIORITY,
      DEFAULT_PRIORITY, MIN_DISTANCE_TICON, MIN_DISTANCE_TO_NOAA, chainDist,
      chainB, chainC, epoch5yr, epoch20yr, List.foldl, List.insert,
      List.filter, List.any, List.mergeSort, List.isEmpty]
  refine ⟨h1, by rw [h1]; exact h2, ?_⟩
  rw [h1, h2]
  intro heq
  have := congrArg List.length heq
  simp at this

/-! ## Step-3 group selection (claim C3) -/

theorem cmpLe_trans_bool : ∀ a b c : Station,
    cmpLe a b = true → cmpLe b c = true → cmpLe a c = true := by
  intro a b c hab hbc
  exact decide_eq_true (compareStationPriority_le_trans
    (of_decide_eq_true hab) (of_decide_eq_true hbc))

theorem cmpLe_total_bool : ∀ a b : Station, (cmpLe a b || cmpLe b a) = true := by
  intro a b
  rw [Bool.or_eq_true]
  rcases compareStationPriority_le_total a b with h | h
  · exact Or.inl (decide_eq_true h)
  · exact Or.inr (decide_eq_true h)

theorem mergeSort_head_min {G : List Station} {keep : Station}
    {others : List Station} (h : G.mergeSort cmpLe = keep :: others) :
    keep ∈ G ∧ ∀ x ∈ G, compareStationPriority keep x ≤ 0 := by
  have hperm := List.mergeSort_perm G cmpLe
  have hmem : keep ∈ G := by
    have hk : keep ∈ G.mergeSort cmpLe := by
      rw [h]; exact List.mem_cons_self _ _
    exact hperm.mem_iff.mp hk
  refine ⟨hmem, ?_⟩
  have hsorted := List.sorted_mergeSort cmpLe_trans_bool cmpLe_total_bool G
  rw [h] at hsorted
  intro x hx
  have hx' : x ∈ keep :: others := by
    rw [← h]; exact hperm.mem_iff.mpr hx
  rcases List.mem_cons.mp hx' with rfl | hxo
  · exact le_of_eq (compareStationPriority_self x)
  · exact of_decide_eq_true (List.rel_of_pairwise_cons hsorted hxo)

theorem step3body_eq_noNearby {d : ℚ → ℚ → ℚ → ℚ → ℚ} {all : List Station}
    {R P : List String} {c : Station}
    (hcR : candidateId c ∉ R) (hcP : candidateId c ∉ P)
    (hnil : step3nearby d all R P c = []) :
    step3body d all (R, P) c = (R, P.insert (candidateId c)) := by
  unfold step3body
  rw [if_neg (not_or.mpr ⟨hcR, hcP⟩)]
  simp only [hnil, List.isEmpty_nil, if_true]

theorem step3body_eq_group {d : ℚ → ℚ → ℚ → ℚ → ℚ} {all : List Station}
    {R P : List String} {c keep : Station} {others : List Station}
    (hcR : candidateId c ∉ R) (hcP : candidateId c ∉ P)
    (hne : step3nearby d all R P c ≠ [])
    (hs : (c :: step3nearby d all R P c).mergeSort cmpLe = keep :: others) :
    step3body d all (R, P) c =
      (others.foldl (fun r o => r.insert (candidateId o)) R,
       others.foldl (fun p o => p.insert (candidateId o))
         (P.insert (candidateId keep))) := by
  unfold step3body
  rw [if_neg (not_or.mpr ⟨hcR, hcP⟩)]
  simp only [hs]
  rw [if_neg (by simp [List.isEmpty_iff, hne])]

/-- Claim C3: in phase 4, a not-yet-finalized candidate `c` forms the
single-hop group of `c` and every other not-yet-finalized candidate within
the 50 m threshold; exactly the group member ranked best by the Priority
Comparator is kept, the rest are discarded, and every group member is
finalized.  In particular, for the spec §8 example of two candidates
≈33 m apart with 20-year and 5-year epochs and no quality flags, the
pipeline keeps the 20-year record and discards the 5-year record. -/
theorem step3_single_hop_group_selection :
    (∀ (d : ℚ → ℚ → ℚ → ℚ → ℚ) (all : List Station) (R P : List String)
      (c : Station), candidateId c ∉ R → candidateId c ∉ P →
      (step3nearby d all R P c = [] →
        step3body d all (R, P) c = (R, P.insert (candidateId c))) ∧
      (∀ keep others,
        (c :: step3nearby d all R P c).mergeSort cmpLe = keep :: others →
        step3nearby d all R P c ≠ [] →
        keep ∈ c :: step3nearby d all R P c ∧
        (∀ x ∈ c :: step3nearby d all R P c,
          compareStationPriority keep x ≤ 0) ∧
        (∀ x, x ∈ (step3body d all (R, P) c).1 ↔
          x ∈ R ∨ ∃ o ∈ others, candidateId o = x) ∧
        (∀ x, x ∈ (step3body d all (R, P) c).2 ↔
          x ∈ P ∨ ∃ g ∈ c :: step3nearby d all R P c, candidateId g = x) ∧
        (((c :: step3nearby d all R P c).map candidateId).Nodup →
          candidateId keep ∉ (step3body d all (R, P) c).1))) ∧
    surviving exDist exDist [] [ticonLong, ticonShort] = [ticonLong] := by
  constructor
  · intro d all R P c hcR hcP
    refine ⟨fun hnil => step3body_eq_noNearby hcR hcP hnil, ?_⟩
    intro keep others hs hne
    obtain ⟨hkeep, hmin⟩ := mergeSort_head_min hs
    have hbody := step3body_eq_group hcR hcP hne hs
    have hperm : ((c :: step3nearby d all R P c).mergeSort cmpLe).Perm
        (c :: step3nearby d all R P c) :=
      List.mergeSort_perm _ cmpLe
    rw [hs] at hperm
    refine ⟨hkeep, hmin, ?_, ?_, ?_⟩
    · intro x
      rw [hbody]
      exact mem_foldl_insert candidateId others R x
    · intro x
      rw [hbody]
      show x ∈ others.foldl (fun p o => p.insert (candidateId o))
        (P.insert (candidateId keep)) ↔ _
      rw [mem_foldl_insert candidateId others (P.insert (candidateId keep)) x,
        List.mem_insert_iff]
      constructor
      · rintro ((h | h) | h)
        · exact Or.inr ⟨keep, hperm.mem_iff.mp (List.mem_cons_self _ _), h.symm⟩
        · exact Or.inl h
        · obtain ⟨o, ho, hox⟩ := h
          exact Or.inr ⟨o, hperm.mem_iff.mp (List.mem_cons_of_mem _ ho), hox⟩
      · rintro (h | ⟨g, hg, hgx⟩)
        · exact Or.inl (Or.inr h)
        · rcases List.mem_cons.mp (hperm.mem_iff.mpr hg) with rfl | hgo
          · exact Or.inl (Or.inl hgx.symm)
          · exact Or.inr ⟨g, hgo, hgx⟩
    · intro hnd hmem
      have hkR : candidateId keep ∉ R := by
        rcases List.mem_cons.mp hkeep with heq | hko
        · exact heq ▸ hcR
        · rw [step3nearby, List.mem_filter] at hko
          have h2 := hko.2
          simp only [Bool.and_eq_true, decide_eq_true_eq] at h2
          exact h2.1.1.2
      rw [hbody] at hmem
      rcases (mem_foldl_insert candidateId others R _).mp hmem with h | ⟨o, ho, hox⟩
      · exact hkR h
      · have hnd' : ((keep :: others).map candidateId).Nodup :=
          ((hperm.map candidateId).nodup_iff).mpr hnd
        rw [List.map_cons, List.nodup_cons] at hnd'
        exact hnd'.1 (hox ▸ List.mem_map_of_mem candidateId ho)
  · norm_num +decide [surviving, pipelineRemoved, step1a, step1b, step2, step2Aux,
      step2Body, step2HasBetterNeighbor, step3, step3Aux, step3body, step3nearby,
      nearNoaa, near, around, aroundPairs, withinMax, candidateId, getSourceSuffix,
      disclaimersFlag, hasQualityIssues, jsIncludes, cmpLe, compareStationPriority,
      epochYears, JULIAN_YEAR_MS, localeCompare, getSourcePriority, SOURCE_PRIORITY,
      DEFAULT_PRIORITY, MIN_DISTANCE_TICON, MIN_DISTANCE_TO_NOAA, exDist,
      ticonLong, ticonShort, epoch5yr, epoch20yr, List.foldl, List.insert,
      List.filter, List.any, List.mergeSort, List.isEmpty]

theorem step3_single_hop_group_selection_witness :
    (candidateId ticonLong ∉ ([] : List String) ∧
      (ticonLong :: step3nearby exDist [ticonLong, ticonShort] [] []
        ticonLong).mergeSort cmpLe = ticonLong :: [ticonShort] ∧
      step3nearby exDist [ticonLong, ticonShort] [] [] ticonLong ≠ []) ∧
    (ticonLong ∈
      ticonLong :: step3nearby exDist [ticonLong, ticonShort] [] [] ticonLong ∧
      ∀ x ∈ ticonLong :: step3nearby exDist [ticonLong, ticonShort] [] [] ticonLong,
        compareStationPriority ticonLong x ≤ 0) := by
  have hn : step3nearby exDist [ticonLong, ticonShort] [] [] ticonLong =
      [ticonShort] := by
    norm_num +decide [step3nearby, candidateId, exDist, ticonLong, ticonShort,
      MIN_DISTANCE_TICON, List.filter]
  have hsort : (ticonLong :: step3nearby exDist [ticonLong, ticonShort] [] []
      ticonLong).mergeSort cmpLe = ticonLong :: [ticonShort] := by
    rw [hn]
    norm_num +decide [List.mergeSort, cmpLe, compareStationPriority,
      hasQualityIssues, epochYears, JULIAN_YEAR_MS, ticonLong, ticonShort,
      epoch20yr, epoch5yr, localeCompare, getSourcePriority, getSourceSuffix,
      SOURCE_PRIORITY, DEFAULT_PRIORITY]
  have hne : step3nearby exDist [ticonLong, ticonShort] [] [] ticonLong ≠ [] := by
    rw [hn]
    simp
  have hmain := (step3_single_hop_group_selection.1 exDist [ticonLong, ticonShort]
    [] [] ticonLong (by simp) (by simp)).2 ticonLong [ticonShort] hsort hne
  exact ⟨⟨by simp, hsort, hne⟩, hmain.1, hmain.2.1⟩

/-! ## Datum-engine lemmas -/

theorem foldl_max_mem : ∀ (t : List ℚ) (a : ℚ), t.foldl max a = a ∨ t.foldl max a ∈ t := by
  intro t
  induction t with
  | nil => intro a; exact Or.inl rfl
  | cons b t ih =>
    intro a
    rw [List.foldl_cons]
    rcases ih (max a b) with h | h
    · rcases max_choice a b with hm | hm
      · exact Or.inl (by rw [h, hm])
      · exact Or.inr (by rw [h, hm]; exact List.mem_cons_self _ _)
    · exact Or.inr (List.mem_cons_of_mem _ h)

theorem le_foldl_max : ∀ (t : List ℚ) (a : ℚ),
    a ≤ t.foldl max a ∧ ∀ x ∈ t, x ≤ t.foldl max a := by
  intro t
  induction t with
  | nil => intro a; exact ⟨le_refl a, by intro x hx; exact absurd hx (List.not_mem_nil x)⟩
  | cons b t ih =>
    intro a
    rw [List.foldl_cons]
    obtain ⟨h1, h2⟩ := ih (max a b)
    refine ⟨le_trans (le_max_left a b) h1, ?_⟩
    intro x hx
    rcases List.mem_cons.mp hx with rfl | hx
    · exact le_trans (le_max_right a x) h1
    · exact h2 x hx

theorem foldl_min_mem : ∀ (t : List ℚ) (a : ℚ), t.foldl min a = a ∨ t.foldl min a ∈ t := by
  intro t
  induction t with
  | nil => intro a; exact Or.inl rfl
  | cons b t ih =>
    intro a
    rw [List.foldl_cons]
    rcases ih (min a b) with h | h
    · rcases min_choice a b with hm | hm
      · exact Or.inl (by rw [h, hm])
      · exact Or.inr (by rw [h, hm]; exact List.mem_cons_self _ _)
    · exact Or.inr (List.mem_cons_of_mem _ h)

theorem foldl_min_le : ∀ (t : List ℚ) (a : ℚ),
    t.foldl min a ≤ a ∧ ∀ x ∈ t, t.foldl min a ≤ x := by
  intro t
  induction t with
  | nil => intro a; exact ⟨le_refl a, by intro x hx; exact absurd hx (List.not_mem_nil x)⟩
  | cons b t ih =>
    intro a
    rw [List.foldl_cons]
    obtain ⟨h1, h2⟩ := ih (min a b)
    refine ⟨le_trans h1 (min_le_left a b), ?_⟩
    intro x hx
    rcases List.mem_cons.mp hx with rfl | hx
    · exact le_trans h1 (min_le_right a x)
    · exact h2 x hx

theorem listMax_spec : ∀ {l : List ℚ} {m : ℚ}, listMax l = some m →
    m ∈ l ∧ ∀ x ∈ l, x ≤ m := by
  intro l m h
  cases l with
  | nil => exact absurd h (by simp [listMax])
  | cons a t =>
    rw [listMax] at h
    injection h with h
    subst h
    constructor
    · rcases foldl_max_mem t a with h | h
      · rw [h]; exact List.mem_cons_self _ _
      · exact List.mem_cons_of_mem _ h
    · intro x hx
      rcases List.mem_cons.mp hx with rfl | hx
      · exact (le_foldl_max t x).1
      · exact (le_foldl_max t a).2 x hx

theorem listMin_spec : ∀ {l : List ℚ} {m : ℚ}, listMin l = some m →
    m ∈ l ∧ ∀ x ∈ l, m ≤ x := by
  intro l m h
  cases l with
  | nil => exact absurd h (by simp [listMin])
  | cons a t =>
    rw [listMin] at h
    injection h with h
    subst h
    constructor
    · rcases foldl_min_mem t a with h | h
      · rw [h]; exact List.mem_cons_self _ _
      · exact List.mem_cons_of_mem _ h
    · intro x hx
      rcases List.mem_cons.mp hx with rfl | hx
      · exact (foldl_min_le t x).1
      · exact (foldl_min_le t a).2 x hx

theorem listMax_isSome {l : List ℚ} (h : l ≠ []) : ∃ m, listMax l = some m := by
  cases l with
  | nil => exact absurd rfl h
  | cons a t => exact ⟨t.foldl max a, rfl⟩

theorem listMin_isSome {l : List ℚ} (h : l ≠ []) : ∃ m, listMin l = some m := by
  cases l with
  | nil => exact absurd rfl h
  | cons a t => exact ⟨t.foldl min a, rfl⟩

theorem getLastD_of_ne_nil {t : List ℚ} (h : t ≠ []) (a b : ℚ) :
    t.getLastD a = t.getLastD b := by
  rw [List.getLastD_eq_getLast?, List.getLastD_eq_getLast?,
    List.getLast?_eq_getLast t h]
  rfl

theorem getLastD_mem {t : List ℚ} (h : t ≠ []) (a : ℚ) : t.getLastD a ∈ t := by
  rw [List.getLastD_eq_getLast?, List.getLast?_eq_getLast t h]
  exact List.getLast_mem h

theorem pairwise_le_getLastD : ∀ (L : List ℚ),
    L.Pairwise (fun a b => ratLe a b = true) → ∀ x ∈ L, x ≤ L.getLastD 0 := by
  intro L
  induction L with
  | nil => intro _ x hx; exact absurd hx (List.not_mem_nil x)
  | cons a t ih =>
    intro hp x hx
    rcases List.pairwise_cons.mp hp with ⟨hhead, htail⟩
    by_cases htnil : t = []
    · subst htnil
      rcases List.mem_cons.mp hx with rfl | hx
      · exact le_refl x
      · exact absurd hx (List.not_mem_nil x)
    · rw [List.getLastD_cons, getLastD_of_ne_nil htnil a 0]
      rcases List.mem_cons.mp hx with rfl | hx
      · exact of_decide_eq_true (hhead _ (getLastD_mem htnil 0))
      · exact ih htail x hx

theorem pairwise_headD_le : ∀ (L : List ℚ),
    L.Pairwise (fun a b => ratLe a b = true) → ∀ x ∈ L, L.headD 0 ≤ x := by
  intro L
  induction L with
  | nil => intro _ x hx; exact absurd hx (List.not_mem_nil x)
  | cons a t _
  =>
    intro hp x hx
    rcases List.pairwise_cons.mp hp with ⟨hhead, _⟩
    rcases List.mem_cons.mp hx with rfl | hx
    · exact le_refl x
    · exact of_decide_eq_true (hhead x hx)

theorem ratLe_trans_bool : ∀ a b c : ℚ, ratLe a b = true → ratLe b c = true →
    ratLe a c = true := by
  intro a b c hab hbc
  exact decide_eq_true (le_trans (of_decide_eq_true hab) (of_decide_eq_true hbc))

theorem ratLe_total_bool : ∀ a b : ℚ, (ratLe a b || ratLe b a) = true := by
  intro a b
  rw [Bool.or_eq_true]
  rcases le_total a b with h | h
  · exact Or.inl (decide_eq_true h)
  · exact Or.inr (decide_eq_true h)

theorem mergeSort_getLastD_eq_max {l : List ℚ} {m : ℚ} (hm : listMax l = some m) :
    (l.mergeSort ratLe).getLastD 0 = m := by
  have hperm := List.mergeSort_perm l ratLe
  have hne : l.mergeSort ratLe ≠ [] := by
    intro h0
    obtain ⟨hmem, _⟩ := listMax_spec hm
    exact absurd (hperm.mem_iff.mpr hmem) (by rw [h0]; exact List.not_mem_nil m)
  have hsorted := List.sorted_mergeSort ratLe_trans_bool ratLe_total_bool l
  obtain ⟨hmmem, hmub⟩ := listMax_spec hm
  have h1 : (l.mergeSort ratLe).getLastD 0 ≤ m :=
    hmub _ (hperm.mem_iff.mp (getLastD_mem hne 0))
  have h2 : m ≤ (l.mergeSort ratLe).getLastD 0 :=
    pairwise_le_getLastD _ hsorted m (hperm.mem_iff.mpr hmmem)
  exact le_antisymm h1 h2

theorem mergeSort_headD_eq_min {l : List ℚ} {m : ℚ} (hm : listMin l = some m) :
    (l.mergeSort ratLe).headD 0 = m := by
  have hperm := List.mergeSort_perm l ratLe
  have hne : l.mergeSort ratLe ≠ [] := by
    intro h0
    obtain ⟨hmem, _⟩ := listMin_spec hm
    exact absurd (hperm.mem_iff.mpr hmem) (by rw [h0]; exact List.not_mem_nil m)
  have hsorted := List.sorted_mergeSort ratLe_trans_bool ratLe_total_bool l
  obtain ⟨hmmem, hmlb⟩ := listMin_spec hm
  have hheadmem : (l.mergeSort ratLe).headD 0 ∈ l.mergeSort ratLe := by
    cases hc : l.mergeSort ratLe with
    | nil => exact absurd hc hne
    | cons a t => rw [List.headD_cons]; exact List.mem_cons_self a t
  have h1 : m ≤ (l.mergeSort ratLe).headD 0 :=
    hmlb _ (hperm.mem_iff.mp hheadmem)
  have h2 : (l.mergeSort ratLe).headD 0 ≤ m :=
    pairwise_headD_le _ hsorted m (hperm.mem_iff.mpr hmmem)
  exact le_antisymm h2 h1

theorem dayLoop_eq_ranges (times heights : List ℚ) (tdms lastT : ℚ) :
    ∀ (fuel : ℕ) (dayStart : ℚ) (idx : ℕ) (aH aL hH lL : List ℚ),
    dayLoop times heights tdms lastT fuel dayStart idx (aH, aL, hH, lL) =
      (aH ++ (windowRangesFrom times tdms lastT fuel dayStart idx).flatMap
          (windowHighs heights),
       aL ++ (windowRangesFrom times tdms lastT fuel dayStart idx).flatMap
          (windowLows heights),
       hH ++ (windowRangesFrom times tdms lastT fuel dayStart idx).filterMap
          (fun r => listMax (windowHighs heights r)),
       lL ++ (windowRangesFrom times tdms lastT fuel dayStart idx).filterMap
          (fun r => listMin (windowLows heights r))) := by
  intro fuel
  induction fuel with
  | zero =>
    intro dayStart idx aH aL hH lL
    simp [dayLoop, windowRangesFrom]
  | succ fuel ih =>
    intro dayStart idx aH aL hH lL
    by_cases hlt : dayStart < lastT
    · simp only [dayLoop, windowRangesFrom, if_pos hlt]
      rw [List.flatMap_cons, List.flatMap_cons, List.filterMap_cons,
        List.filterMap_cons]
      have hwh : ∀ h3 : advanceIdx times (dayStart + tdms) idx - idx ≥ 3,
          windowHighs heights (idx, advanceIdx times (dayStart + tdms) idx) =
            (scanInterior heights (idx + 1)
              (advanceIdx times (dayStart + tdms) idx - 1)).1 := by
        intro h3; simp [windowHighs, h3]
      have hwl : ∀ h3 : advanceIdx times (dayStart + tdms) idx - idx ≥ 3,
          windowLows heights (idx, advanceIdx times (dayStart + tdms) idx) =
            (scanInterior heights (idx + 1)
              (advanceIdx times (dayStart + tdms) idx - 1)).2 := by
        intro h3; simp [windowLows, h3]
      split_ifs with h3 hE2 hE1 hE1x
      · -- window counted, lows empty, highs empty
        have hnil1 : (scanInterior heights (idx + 1)
            (advanceIdx times (dayStart + tdms) idx - 1)).1 = [] :=
          List.isEmpty_iff.mp hE1
        have hnil2 : (scanInterior heights (idx + 1)
            (advanceIdx times (dayStart + tdms) idx - 1)).2 = [] :=
          List.isEmpty_iff.mp hE2
        rw [ih, hwh h3, hwl h3, hnil1, hnil2]
        simp [listMax, listMin]
      · -- window counted, lows empty, highs nonempty
        have hne1 : (scanInterior heights (idx + 1)
            (advanceIdx times (dayStart + tdms) idx - 1)).1 ≠ [] := by
          simpa [List.isEmpty_iff] using hE1
        have hnil2 : (scanInterior heights (idx + 1)
            (advanceIdx times (dayStart + tdms) idx - 1)).2 = [] :=
          List.isEmpty_iff.mp hE2
        obtain ⟨m1, hm1⟩ := listMax_isSome hne1
        rw [ih, hwh h3, hwl h3, hnil2, mergeSort_getLastD_eq_max hm1, hm1]
        simp [listMin, List.append_assoc]
      · -- window counted, lows nonempty, highs empty
        have hnil1 : (scanInterior heights (idx + 1)
            (advanceIdx times (dayStart + tdms) idx - 1)).1 = [] :=
          List.isEmpty_iff.mp hE1x
        have hne2 : (scanInterior heights (idx + 1)
            (advanceIdx times (dayStart + tdms) idx - 1)).2 ≠ [] := by
          simpa [List.isEmpty_iff] using hE2
        obtain ⟨m2, hm2⟩ := listMin_isSome hne2
        rw [ih, hwh h3, hwl h3, hnil1, mergeSort_headD_eq_min hm2, hm2]
        simp [listMax, List.append_assoc]
      · -- window counted, lows nonempty, highs nonempty
        have hne1 : (scanInterior heights (idx + 1)
            (advanceIdx times (dayStart + tdms) idx - 1)).1 ≠ [] := by
          simpa [List.isEmpty_iff] using hE1x
        have hne2 : (scanInterior heights (idx + 1)
            (advanceIdx times (dayStart + tdms) idx - 1)).2 ≠ [] := by
          simpa [List.isEmpty_iff] using hE2
        obtain ⟨m1, hm1⟩ := listMax_isSome hne1
        obtain ⟨m2, hm2⟩ := listMin_isSome hne2
        rw [ih, hwh h3, hwl h3, mergeSort_getLastD_eq_max hm1, hm1,
          mergeSort_headD_eq_min hm2, hm2]
        simp [List.append_assoc]
      · -- window with fewer than 3 samples
        have hwh0 : windowHighs heights
            (idx, advanceIdx times (dayStart + tdms) idx) = [] := by
          simp [windowHighs, h3]
        have hwl0 : windowLows heights
            (idx, advanceIdx times (dayStart + tdms) idx) = [] := by
          simp [windowLows, h3]
        rw [ih, hwh0, hwl0]
        simp [listMax, listMin]
    · simp [dayLoop, windowRangesFrom, if_neg hlt]

theorem advanceIdx_step {times : List ℚ} {bound : ℚ} {idx : ℕ}
    (h1 : idx < times.length) (h2 : times.getD idx 0 < bound) :
    advanceIdx times bound idx = advanceIdx times bound (idx + 1) := by
  rw [advanceIdx]
  rw [dif_pos ⟨h1, h2⟩]

theorem advanceIdx_stop {times : List ℚ} {bound : ℚ} {idx : ℕ}
    (h : ¬(idx < times.length ∧ times.getD idx 0 < bound)) :
    advanceIdx times bound idx = idx := by
  rw [advanceIdx, dif_neg h]

theorem scanInterior_step_high {heights : List ℚ} {i stop : ℕ}
    (h : i < stop)
    (hcls : heights.getD i 0 ≥ heights.getD (i - 1) 0 ∧
      heights.getD i 0 ≥ heights.getD (i + 1) 0 ∧
      (heights.getD i 0 > heights.getD (i - 1) 0 ∨
        heights.getD i 0 > heights.getD (i + 1) 0)) :
    scanInterior heights i stop =
      (heights.getD i 0 :: (scanInterior heights (i + 1) stop).1,
        (scanInterior heights (i + 1) stop).2) := by
  rw [scanInterior]
  simp only [dif_pos h]
  rw [if_pos hcls]

theorem scanInterior_step_low {heights : List ℚ} {i stop : ℕ}
    (h : i < stop)
    (hnh : ¬(heights.getD i 0 ≥ heights.getD (i - 1) 0 ∧
      heights.getD i 0 ≥ heights.getD (i + 1) 0 ∧
      (heights.getD i 0 > heights.getD (i - 1) 0 ∨
        heights.getD i 0 > heights.getD (i + 1) 0)))
    (hcls : heights.getD i 0 ≤ heights.getD (i - 1) 0 ∧
      heights.getD i 0 ≤ heights.getD (i + 1) 0 ∧
      (heights.getD i 0 < heights.getD (i - 1) 0 ∨
        heights.getD i 0 < heights.getD (i + 1) 0)) :
    scanInterior heights i stop =
      ((scanInterior heights (i + 1) stop).1,
        heights.getD i 0 :: (scanInterior heights (i + 1) stop).2) := by
  rw [scanInterior]
  simp only [dif_pos h]
  rw [if_neg hnh, if_pos hcls]

theorem scanInterior_stop {heights : List ℚ} {i stop : ℕ} (h : ¬(i < stop)) :
    scanInterior heights i stop = ([], []) := by
  rw [scanInterior, dif_neg h]

theorem extremaLists_example :
    extremaLists witTimes witHeights DEFAULT_TIDAL_DAY_HOURS =
      ([1, 1], [0], [1], [0]) := by
  have hD : DEFAULT_TIDAL_DAY_HOURS * 60 * 60 * 1000 = 2234999997/25 := by
    norm_num [DEFAULT_TIDAL_DAY_HOURS]
  have hadv : advanceIdx witTimes (0 + 2234999997/25) 0 = 5 := by
    rw [advanceIdx_step (by norm_num [witTimes])
        (by rw [show witTimes.getD 0 0 = 0 from rfl]; norm_num),
      advanceIdx_step (by norm_num [witTimes])
        (by rw [show witTimes.getD 1 0 = 3600000 from rfl]; norm_num),
      advanceIdx_step (by norm_num [witTimes])
        (by rw [show witTimes.getD 2 0 = 7200000 from rfl]; norm_num),
      advanceIdx_step (by norm_num [witTimes])
        (by rw [show witTimes.getD 3 0 = 10800000 from rfl]; norm_num),
      advanceIdx_step (by norm_num [witTimes])
        (by rw [show witTimes.getD 4 0 = 14400000 from rfl]; norm_num),
      advanceIdx_stop (by simp [witTimes])]
  have gv0 : witHeights.getD 0 0 = 0 := rfl
  have gv1 : witHeights.getD 1 0 = 1 := rfl
  have gv2 : witHeights.getD 2 0 = 0 := rfl
  have gv3 : witHeights.getD 3 0 = 1 := rfl
  have gv4 : witHeights.getD 4 0 = 0 := rfl
  have c1 : witHeights.getD 1 0 ≥ witHeights.getD 0 0 ∧
      witHeights.getD 1 0 ≥ witHeights.getD 2 0 ∧
      (witHeights.getD 1 0 > witHeights.getD 0 0 ∨
        witHeights.getD 1 0 > witHeights.getD 2 0) := by
    rw [gv0, gv1, gv2]
    norm_num
  have c2n : ¬(witHeights.getD 2 0 ≥ witHeights.getD 1 0 ∧
      witHeights.getD 2 0 ≥ witHeights.getD 3 0 ∧
      (witHeights.getD 2 0 > witHeights.getD 1 0 ∨
        witHeights.getD 2 0 > witHeights.getD 3 0)) := by
    rw [gv1, gv2, gv3]
    norm_num
  have c2 : witHeights.getD 2 0 ≤ witHeights.getD 1 0 ∧
      witHeights.getD 2 0 ≤ witHeights.getD 3 0 ∧
      (witHeights.getD 2 0 < witHeights.getD 1 0 ∨
        witHeights.getD 2 0 < witHeights.getD 3 0) := by
    rw [gv1, gv2, gv3]
    norm_num
  have c3 : witHeights.getD 3 0 ≥ witHeights.getD 2 0 ∧
      witHeights.getD 3 0 ≥ witHeights.getD 4 0 ∧
      (witHeights.getD 3 0 > witHeights.getD 2 0 ∨
        witHeights.getD 3 0 > witHeights.getD 4 0) := by
    rw [gv2, gv3, gv4]
    norm_num
  have hscan : scanInterior witHeights 1 4 = ([1, 1], [0]) := by
    rw [scanInterior_step_high (by norm_num) c1]
    rw [scanInterior_step_low (by norm_num) c2n c2]
    rw [scanInterior_step_high (by norm_num) c3]
    rw [scanInterior_stop (by norm_num)]
    simp only [show witHeights.getD 1 0 = 1 from rfl,
      show witHeights.getD (1 + 1) 0 = 0 from rfl,
      show witHeights.getD (1 + 1 + 1) 0 = 1 from rfl]
  simp only [extremaLists]
  rw [show witTimes.headD 0 = 0 from rfl,
    show witTimes.getLastD 0 = 14400000 from rfl, hD]
  rw [show ((⌊((14400000 : ℚ) - 0) / (2234999997/25)⌋).toNat + 1) = 1 from by
    norm_num]
  simp only [dayLoop]
  rw [if_pos (show (0 : ℚ) < 14400000 from by norm_num)]
  rw [hadv]
  rw [if_pos (show 5 - 0 ≥ 3 from by norm_num)]
  rw [show (5 : ℕ) - 1 = 4 from rfl, show (0 : ℕ) + 1 = 1 from rfl, hscan]
  norm_num [List.mergeSort, ratLe]

theorem extremaLists_eq (times heights : List ℚ) (td : ℚ) :
    extremaLists times heights td =
      (seriesHighs times heights td, seriesLows times heights td,
        seriesHigherHighs times heights td, seriesLowerLows times heights td) := by
  simp only [extremaLists, seriesHighs, seriesLows, seriesHigherHighs,
    seriesLowerLows, windowRanges]
  rw [dayLoop_eq_ranges]
  simp

theorem toFixed_thousandth (y : ℚ) : ∃ n : ℤ, toFixed y 3 = (n : ℚ) / 1000 := by
  refine ⟨⌊y * 10 ^ 3 + 1/2⌋, ?_⟩
  unfold toFixed
  norm_num

/-- Claim C4: for every non-empty synthesized series, the datum engine
aggregates over the whole series as: MHHW = mean of all per-window higher
highs, MHW = mean of all highs, MSL = mean of every sample, MTL = the mean
of (mean of highs + mean of lows) halved, MLW = mean of all lows, MLLW =
mean of all lower lows, LAT = the global minimum sample height; and every
returned datum value is rounded to 3 decimal places (an integer multiple
of 1/1000). -/
theorem computeDatumsFromTimeline_aggregation :
    ∀ (times heights : List ℚ) (td : ℚ), times ≠ [] →
      times.length = heights.length →
      computeDatumsFromTimeline times heights td = Except.ok
        { MHHW := (mean (seriesHigherHighs times heights td)).map (toFixed · 3),
          MHW := (mean (seriesHighs times heights td)).map (toFixed · 3),
          MSL := (mean heights).map (toFixed · 3),
          MTL := (optAdd (mean (seriesHighs times heights td))
            (mean (seriesLows times heights td))).map (fun s => toFixed (s / 2) 3),
          MLW := (mean (seriesLows times heights td)).map (toFixed · 3),
          MLLW := (mean (seriesLowerLows times heights td)).map (toFixed · 3),
          LAT := (listMin heights).map (toFixed · 3) } ∧
      (∀ dat, computeDatumsFromTimeline times heights td = Except.ok dat →
        ∀ q : ℚ, some q ∈ datumValues dat → ∃ n : ℤ, q = (n : ℚ) / 1000) := by
  intro times heights td hne hlen
  have hcond : ¬(times.length = 0 ∨ times.length ≠ heights.length) := by
    push_neg
    exact ⟨fun h => hne (List.length_eq_zero.mp h), hlen⟩
  have hmain : computeDatumsFromTimeline times heights td = Except.ok
      { MHHW := (mean (seriesHigherHighs times heights td)).map (toFixed · 3),
        MHW := (mean (seriesHighs times heights td)).map (toFixed · 3),
        MSL := (mean heights).map (toFixed · 3),
        MTL := (optAdd (mean (seriesHighs times heights td))
          (mean (seriesLows times heights td))).map (fun s => toFixed (s / 2) 3),
        MLW := (mean (seriesLows times heights td)).map (toFixed · 3),
        MLLW := (mean (seriesLowerLows times heights td)).map (toFixed · 3),
        LAT := (listMin heights).map (toFixed · 3) } := by
    simp only [computeDatumsFromTimeline]
    rw [if_neg hcond, extremaLists_eq]
  refine ⟨hmain, ?_⟩
  intro dat hdat q hq
  rw [hmain] at hdat
  injection hdat with hdat
  subst hdat
  simp only [datumValues, List.mem_cons, List.not_mem_nil, or_false] at hq
  have key : ∀ (o : Option ℚ), o.map (toFixed · 3) = some q →
      ∃ n : ℤ, q = (n : ℚ) / 1000 := by
    intro o ho
    obtain ⟨y, _, hfy⟩ := Option.map_eq_some'.mp ho
    obtain ⟨n, hn⟩ := toFixed_thousandth y
    exact ⟨n, by rw [← hfy, hn]⟩
  rcases hq with h | h | h | h | h | h | h
  · exact key _ h.symm
  · exact key _ h.symm
  · exact key _ h.symm
  · obtain ⟨y, _, hfy⟩ := Option.map_eq_some'.mp h.symm
    obtain ⟨n, hn⟩ := toFixed_thousandth (y / 2)
    exact ⟨n, by rw [← hfy, hn]⟩
  · exact key _ h.symm
  · exact key _ h.symm
  · exact key _ h.symm

theorem computeDatumsFromTimeline_aggregation_witness :
    (witTimes ≠ [] ∧ witTimes.length = witHeights.length) ∧
    (computeDatumsFromTimeline witTimes witHeights DEFAULT_TIDAL_DAY_HOURS =
      Except.ok
        { MHHW := (mean (seriesHigherHighs witTimes witHeights
            DEFAULT_TIDAL_DAY_HOURS)).map (toFixed · 3),
          MHW := (mean (seriesHighs witTimes witHeights
            DEFAULT_TIDAL_DAY_HOURS)).map (toFixed · 3),
          MSL := (mean witHeights).map (toFixed · 3),
          MTL := (optAdd (mean (seriesHighs witTimes witHeights
              DEFAULT_TIDAL_DAY_HOURS))
            (mean (seriesLows witTimes witHeights
              DEFAULT_TIDAL_DAY_HOURS))).map (fun s => toFixed (s / 2) 3),
          MLW := (mean (seriesLows witTimes witHeights
            DEFAULT_TIDAL_DAY_HOURS)).map (toFixed · 3),
          MLLW := (mean (seriesLowerLows witTimes witHeights
            DEFAULT_TIDAL_DAY_HOURS)).map (toFixed · 3),
          LAT := (listMin witHeights).map (toFixed · 3) } ∧
      (∀ dat, computeDatumsFromTimeline witTimes witHeights
          DEFAULT_TIDAL_DAY_HOURS = Except.ok dat →
        ∀ q : ℚ, some q ∈ datumValues dat → ∃ n : ℤ, q = (n : ℚ) / 1000)) := by
  have h1 : witTimes ≠ [] := by simp [witTimes]
  have h2 : witTimes.length = witHeights.length := by simp [witTimes, witHeights]
  exact ⟨⟨h1, h2⟩, computeDatumsFromTimeline_aggregation witTimes witHeights
    DEFAULT_TIDAL_DAY_HOURS h1 h2⟩

/-- Claim C6 (amended): for every accepted input (non-empty series of
equal-length times and heights), MSL and LAT are always finite, and each
remaining datum is finite whenever the corresponding extrema list (all
highs / all lows / higher highs / lower lows) is non-empty; a series too
short to produce extrema yields `NaN` datums (see the counterexample). -/
theorem datums_finiteness :
    ∀ (times heights : List ℚ) (td : ℚ), times ≠ [] →
      times.length = heights.length →
      ∃ dat, computeDatumsFromTimeline times heights td = Except.ok dat ∧
        dat.MSL.isSome = true ∧ dat.LAT.isSome = true ∧
        ((extremaLists times heights td).1 ≠ [] → dat.MHW.isSome = true) ∧
        ((extremaLists times heights td).2.1 ≠ [] → dat.MLW.isSome = true) ∧
        ((extremaLists times heights td).2.2.1 ≠ [] → dat.MHHW.isSome = true) ∧
        ((extremaLists times heights td).2.2.2 ≠ [] → dat.MLLW.isSome = true) ∧
        ((extremaLists times heights td).1 ≠ [] →
          (extremaLists times heights td).2.1 ≠ [] →
          dat.MTL.isSome = true) := by
  intro times heights td hne hlen
  have hcond : ¬(times.length = 0 ∨ times.length ≠ heights.length) := by
    push_neg
    exact ⟨fun h => hne (List.length_eq_zero.mp h), hlen⟩
  have hhne : heights ≠ [] := by
    intro h0
    rw [h0] at hlen
    exact hne (List.length_eq_zero.mp (by simpa using hlen))
  simp only [computeDatumsFromTimeline]
  rw [if_neg hcond]
  refine ⟨_, rfl, ?_, ?_, ?_, ?_, ?_, ?_, ?_⟩
  · simp [mean, List.length_eq_zero, hhne]
  · cases hh : heights with
    | nil => exact absurd hh hhne
    | cons a t => simp [listMin]
  · intro hx
    simp [mean, List.length_eq_zero, hx]
  · intro hx
    simp [mean, List.length_eq_zero, hx]
  · intro hx
    simp [mean, List.length_eq_zero, hx]
  · intro hx
    simp [mean, List.length_eq_zero, hx]
  · intro hx hy
    simp [mean, List.length_eq_zero, hx, hy, optAdd]

theorem datums_finiteness_witness :
    (witTimes ≠ [] ∧ witTimes.length = witHeights.length) ∧
    (∃ dat, computeDatumsFromTimeline witTimes witHeights
        DEFAULT_TIDAL_DAY_HOURS = Except.ok dat ∧
      dat.MSL.isSome = true ∧ dat.LAT.isSome = true ∧
      ((extremaLists witTimes witHeights DEFAULT_TIDAL_DAY_HOURS).1 ≠ [] →
        dat.MHW.isSome = true) ∧
      ((extremaLists witTimes witHeights DEFAULT_TIDAL_DAY_HOURS).2.1 ≠ [] →
        dat.MLW.isSome = true) ∧
      ((extremaLists witTimes witHeights DEFAULT_TIDAL_DAY_HOURS).2.2.1 ≠ [] →
        dat.MHHW.isSome = true) ∧
      ((extremaLists witTimes witHeights DEFAULT_TIDAL_DAY_HOURS).2.2.2 ≠ [] →
        dat.MLLW.isSome = true) ∧
      ((extremaLists witTimes witHeights DEFAULT_TIDAL_DAY_HOURS).1 ≠ [] →
        (extremaLists witTimes witHeights DEFAULT_TIDAL_DAY_HOURS).2.1 ≠ [] →
        dat.MTL.isSome = true)) ∧
    (extremaLists witTimes witHeights DEFAULT_TIDAL_DAY_HOURS).1 ≠ [] ∧
    (extremaLists witTimes witHeights DEFAULT_TIDAL_DAY_HOURS).2.1 ≠ [] ∧
    (extremaLists witTimes witHeights DEFAULT_TIDAL_DAY_HOURS).2.2.1 ≠ [] ∧
    (extremaLists witTimes witHeights DEFAULT_TIDAL_DAY_HOURS).2.2.2 ≠ [] := by
  have h1 : witTimes ≠ [] := by simp [witTimes]
  have h2 : witTimes.length = witHeights.length := by simp [witTimes, witHeights]
  refine ⟨⟨h1, h2⟩,
    datums_finiteness witTimes witHeights DEFAULT_TIDAL_DAY_HOURS h1 h2,
    ?_, ?_, ?_, ?_⟩ <;> (rw [extremaLists_example]; simp)

/-- Claim C6 counterexample: the single-sample series (an input the engine
accepts) produces `NaN` (modelled `none`) for MHHW, MHW, MTL, MLW and
MLLW, so not every returned datum value is finite. -/
theorem datums_nan_counterexample :
    computeDatumsFromTimeline [0] [1] DEFAULT_TIDAL_DAY_HOURS = Except.ok
      { MHHW := none, MHW := none, MSL := some 1, MTL := none, MLW := none,
        MLLW := none, LAT := some 1 } := by
  norm_num [computeDatumsFromTimeline, extremaLists, dayLoop, mean, optAdd,
    listMin, toFixed, DEFAULT_TIDAL_DAY_HOURS, Int.floor_eq_iff]

/-- Claim C5: epoch resolution: an explicit epoch of at most 19 years is
used unchanged; with no epoch the window defaults to the 19 years ending
now; an epoch exceeding 19 years is clamped to the most recent 19 years
ending at the given end, with `lengthYears = 19`. -/
theorem resolveEpoch_spec :
    (∀ now s e : ℚ, (e - s) / YEAR_MS ≤ 19 →
      resolveEpoch now (some s) (some e) = (s, e, (e - s) / YEAR_MS)) ∧
    (∀ now : ℚ, resolveEpoch now none none = (now - NINETEEN_YEARS, now, 19)) ∧
    (∀ now s e : ℚ, (e - s) / YEAR_MS > 19 →
      resolveEpoch now (some s) (some e) = (e - NINETEEN_YEARS, e, 19)) := by
  refine ⟨?_, ?_, ?_⟩
  · intro now s e h
    simp only [resolveEpoch, Option.getD_some]
    rw [if_neg (not_lt.mpr h)]
  · intro now
    simp only [resolveEpoch, Option.getD_none]
    have hys : now - (now - NINETEEN_YEARS) = NINETEEN_YEARS := by ring
    rw [hys]
    have hl : NINETEEN_YEARS / YEAR_MS = 19 := by
      rw [NINETEEN_YEARS]
      rw [mul_div_assoc, div_self (by norm_num [YEAR_MS]), mul_one]
    rw [hl]
    rw [if_neg (lt_irrefl 19)]
  · intro now s e h
    simp only [resolveEpoch, Option.getD_some]
    rw [if_pos h]

theorem resolveEpoch_spec_witness :
    ((0 - (-(YEAR_MS : ℚ))) / YEAR_MS ≤ 19 ∧
      resolveEpoch 0 (some (-(YEAR_MS : ℚ))) (some 0) =
        (-(YEAR_MS : ℚ), 0, (0 - (-(YEAR_MS : ℚ))) / YEAR_MS)) ∧
    ((0 - (-(25 * YEAR_MS : ℚ))) / YEAR_MS > 19 ∧
      resolveEpoch 0 (some (-(25 * YEAR_MS : ℚ))) (some 0) =
        (0 - NINETEEN_YEARS, 0, 19)) := by
  have h1 : ((0 : ℚ) - (-(YEAR_MS : ℚ))) / YEAR_MS ≤ 19 := by
    norm_num [YEAR_MS]
  have h2 : ((0 : ℚ) - (-(25 * YEAR_MS : ℚ))) / YEAR_MS > 19 := by
    norm_num [YEAR_MS]
  exact ⟨⟨h1, resolveEpoch_spec.1 0 (-(YEAR_MS : ℚ)) 0 h1⟩,
    ⟨h2, resolveEpoch_spec.2.2 0 (-(25 * YEAR_MS : ℚ)) 0 h2⟩⟩

theorem exceptMap_error_iff {α β γ : Type} (f : α → β) (x : Except γ α) :
    (∃ msg, x.map f = Except.error msg) ↔ (∃ msg, x = Except.error msg) := by
  cases x <;> simp [Except.map]

theorem exceptMap_ok_iff {α β γ : Type} (f : α → β) (x : Except γ α) :
    (∃ b, x.map f = Except.ok b) ↔ (∃ a, x = Except.ok a) := by
  cases x <;> simp [Except.map]

theorem computeDatumsFromTimeline_error_iff {times heights : List ℚ} {td : ℚ} :
    (∃ msg, computeDatumsFromTimeline times heights td = Except.error msg) ↔
      (times.length = 0 ∨ times.length ≠ heights.length) := by
  simp only [computeDatumsFromTimeline]
  by_cases hc : times.length = 0 ∨ times.length ≠ heights.length
  · rw [if_pos hc]
    exact iff_of_true ⟨_, rfl⟩ hc
  · rw [if_neg hc]
    exact iff_of_false (by simp) hc

theorem computeDatumsFromTimeline_ok_iff {times heights : List ℚ} {td : ℚ} :
    (∃ dat, computeDatumsFromTimeline times heights td = Except.ok dat) ↔
      ¬(times.length = 0 ∨ times.length ≠ heights.length) := by
  simp only [computeDatumsFromTimeline]
  by_cases hc : times.length = 0 ∨ times.length ≠ heights.length
  · rw [if_pos hc]
    exact iff_of_false (by simp) (not_not_intro hc)
  · rw [if_neg hc]
    exact iff_of_true ⟨_, rfl⟩ hc

/-- Claim C7: `computeDatums` fails with an input error exactly when the
constituent list is empty or the synthesized series is empty or mismatched
(times and heights of unequal length — impossible here, both being
projections of one timeline), and in every such case no datums result is
returned. -/
theorem computeDatums_failure_characterization :
    ∀ (gen : ℚ → ℚ → ℚ → List (ℚ × ℚ))
      (constituents : List HarmonicConstituent) (now : ℚ)
      (startSpec endSpec : Option ℚ) (stepHours tidalDayHours : ℚ),
    ((∃ msg, computeDatums gen constituents now startSpec endSpec stepHours
        tidalDayHours = Except.error msg) ↔
      (constituents = [] ∨
        ((gen (resolveEpoch now startSpec endSpec).1
          (resolveEpoch now startSpec endSpec).2.1
          (stepHours * 60 * 60)).map Prod.fst = [] ∨
        ((gen (resolveEpoch now startSpec endSpec).1
          (resolveEpoch now startSpec endSpec).2.1
          (stepHours * 60 * 60)).map Prod.fst).length ≠
          ((gen (resolveEpoch now startSpec endSpec).1
            (resolveEpoch now startSpec endSpec).2.1
            (stepHours * 60 * 60)).map Prod.snd).length))) ∧
    ((∃ res, computeDatums gen constituents now startSpec endSpec stepHours
        tidalDayHours = Except.ok res) ↔
      ¬(constituents = [] ∨
        ((gen (resolveEpoch now startSpec endSpec).1
          (resolveEpoch now startSpec endSpec).2.1
          (stepHours * 60 * 60)).map Prod.fst = [] ∨
        ((gen (resolveEpoch now startSpec endSpec).1
          (resolveEpoch now startSpec endSpec).2.1
          (stepHours * 60 * 60)).map Prod.fst).length ≠
          ((gen (resolveEpoch now startSpec endSpec).1
            (resolveEpoch now startSpec endSpec).2.1
            (stepHours * 60 * 60)).map Prod.snd).length))) := by
  intro gen cs now startSpec endSpec stepHours tidalDayHours
  have hmm : ((gen (resolveEpoch now startSpec endSpec).1
      (resolveEpoch now startSpec endSpec).2.1
      (stepHours * 60 * 60)).map Prod.fst).length =
      ((gen (resolveEpoch now startSpec endSpec).1
        (resolveEpoch now startSpec endSpec).2.1
        (stepHours * 60 * 60)).map Prod.snd).length := by
    simp
  by_cases hcs : cs.isEmpty
  · have hcs' : cs = [] := List.isEmpty_iff.mp hcs
    constructor
    · constructor
      · intro _
        exact Or.inl hcs'
      · intro _
        exact ⟨_, by simp only [computeDatums]; rw [if_pos hcs]⟩
    · constructor
      · rintro ⟨res, hres⟩
        simp only [computeDatums] at hres
        rw [if_pos hcs] at hres
        exact absurd hres (by simp)
      · intro hn
        exact absurd (Or.inl hcs') hn
  · have hcs' : cs ≠ [] := fun h => hcs (List.isEmpty_iff.mpr h)
    have key : (∃ msg, computeDatums gen cs now startSpec endSpec stepHours
        tidalDayHours = Except.error msg) ↔
        ((gen (resolveEpoch now startSpec endSpec).1
          (resolveEpoch now startSpec endSpec).2.1
          (stepHours * 60 * 60)).map Prod.fst = []) := by
      simp only [computeDatums]
      rw [if_neg hcs]
      rw [exceptMap_error_iff, computeDatumsFromTimeline_error_iff]
      simp [List.length_eq_zero]
    have key2 : (∃ res, computeDatums gen cs now startSpec endSpec stepHours
        tidalDayHours = Except.ok res) ↔
        ¬((gen (resolveEpoch now startSpec endSpec).1
          (resolveEpoch now startSpec endSpec).2.1
          (stepHours * 60 * 60)).map Prod.fst = []) := by
      simp only [computeDatums]
      rw [if_neg hcs]
      rw [exceptMap_ok_iff, computeDatumsFromTimeline_ok_iff]
      simp [List.length_eq_zero]
    constructor
    · constructor
      · intro h
        exact Or.inr (Or.inl (key.mp h))
      · rintro (h | h | h)
        · exact absurd h hcs'
        · exact key.mpr h
        · exact absurd hmm h
    · constructor
      · intro h
        rintro (h1 | h2 | h3)
        · exact hcs' h1
        · exact (key2.mp h) h2
        · exact h3 hmm
      · intro hn
        exact key2.mpr (fun hempty => hn (Or.inr (Or.inl hempty)))

/-! ## Spatial query lemmas (claim C8) -/

theorem pairLe_trans_bool : ∀ p q r : ℕ × ℚ,
    decide (p.2 ≤ q.2) = true → decide (q.2 ≤ r.2) = true →
    decide (p.2 ≤ r.2) = true := by
  intro p q r h1 h2
  exact decide_eq_true (le_trans (of_decide_eq_true h1) (of_decide_eq_true h2))

theorem pairLe_total_bool : ∀ p q : ℕ × ℚ,
    (decide (p.2 ≤ q.2) || decide (q.2 ≤ p.2)) = true := by
  intro p q
  rw [Bool.or_eq_true]
  rcases le_total p.2 q.2 with h | h
  · exact Or.inl (decide_eq_true h)
  · exact Or.inr (decide_eq_true h)

theorem aroundPairs_snd {dist : ℚ → ℚ → ℚ → ℚ → ℚ} {stations : List GeoStation}
    {lon lat : ℚ} {maxDistance : Option ℚ} {pred : ℕ → Bool} :
    ∀ p ∈ aroundPairs dist stations lon lat maxDistance pred,
      p.2 = dist lon lat (stations.getD p.1 default).longitude
        (stations.getD p.1 default).latitude ∧
      withinMax maxDistance p.2 = true := by
  intro p hp
  rw [aroundPairs, List.mem_mergeSort, List.mem_filter] at hp
  obtain ⟨hmem, hpred⟩ := hp
  rw [Bool.and_eq_true] at hpred
  obtain ⟨i, _, hpi⟩ := List.mem_map.mp hmem
  constructor
  · rw [← hpi]
  · exact hpred.2

theorem aroundPairs_sorted (dist : ℚ → ℚ → ℚ → ℚ → ℚ) (stations : List GeoStation)
    (lon lat : ℚ) (maxDistance : Option ℚ) (pred : ℕ → Bool) :
    (aroundPairs dist stations lon lat maxDistance pred).Pairwise
      (fun p q => p.2 ≤ q.2) := by
  have hs := List.sorted_mergeSort pairLe_trans_bool pairLe_total_bool
    (((List.range stations.length).map (fun i =>
      (i, dist lon lat (stations.getD i default).longitude
        (stations.getD i default).latitude))).filter
      (fun p => pred p.1 && withinMax maxDistance p.2))
  rw [aroundPairs]
  exact hs.imp (fun h => of_decide_eq_true h)

/-- Claim C8: `nearest` equals the sole result of `near` with
`maxResults = 1` (`none`/empty when nothing qualifies); every `near`
result list contains no station farther than `maxDistance` and is sorted
in non-decreasing order of distance. -/
theorem near_nearest_spec :
    ∀ (dist : ℚ → ℚ → ℚ → ℚ → ℚ) (stations : List GeoStation) (lat lon : ℚ)
      (maxDistance : Option ℚ) (filter : Option (GeoStation → Bool)),
    (nearest dist stations lat lon maxDistance filter =
      (near dist stations lat lon maxDistance 1 filter).head?) ∧
    ((near dist stations lat lon maxDistance 1 filter).length ≤ 1) ∧
    (nearest dist stations lat lon maxDistance filter = none ↔
      near dist stations lat lon maxDistance 1 filter = []) ∧
    (∀ (maxResults : ℕ) (m : ℚ), maxDistance = some m →
      ∀ p ∈ near dist stations lat lon maxDistance maxResults filter,
        p.2 ≤ m) ∧
    (∀ maxResults : ℕ,
      ((near dist stations lat lon maxDistance maxResults filter).map
        Prod.snd).Sorted (· ≤ ·)) := by
  intro dist stations lat lon maxDistance filter
  refine ⟨rfl, ?_, ?_, ?_, ?_⟩
  · simp only [near, around, List.length_map, List.length_take]
    exact min_le_left _ _
  · rw [nearest]
    exact List.head?_eq_none_iff
  · intro maxResults m hm p hp
    simp only [near, around, List.mem_map] at hp
    obtain ⟨i, hi, hpi⟩ := hp
    obtain ⟨q, hq, hqi⟩ := hi
    have hqpairs : q ∈ aroundPairs dist stations lon lat maxDistance _ :=
      (List.take_sublist _ _).mem hq
    obtain ⟨hqd, hqw⟩ := aroundPairs_snd q hqpairs
    rw [hm] at hqw
    have hqm : q.2 ≤ m := of_decide_eq_true hqw
    have : p.2 = q.2 := by
      rw [← hpi]
      simp only
      rw [hqd, hqi]
    rw [this]
    exact hqm
  · intro maxResults
    show ((near dist stations lat lon maxDistance maxResults filter).map
      Prod.snd).Pairwise (· ≤ ·)
    simp only [near, around, List.map_map]
    rw [List.pairwise_map]
    refine List.Pairwise.imp_of_mem ?_
      ((aroundPairs_sorted dist stations lon lat maxDistance _).sublist
        (List.take_sublist _ _))
    intro a b ha hb hab
    have hapairs := (List.take_sublist _ _).mem ha
    have hbpairs := (List.take_sublist _ _).mem hb
    obtain ⟨had, _⟩ := aroundPairs_snd a hapairs
    obtain ⟨hbd, _⟩ := aroundPairs_snd b hbpairs
    simp only [Function.comp]
    rw [← had, ← hbd]
    exact hab

theorem near_nearest_spec_witness :
    (some (2 : ℚ) = some 2) ∧
    (∀ p ∈ near exDist [⟨"noaa/8410140", 44, -67⟩] 44 (-67) (some 2) 5 none,
      p.2 ≤ 2) := by
  exact ⟨rfl, (near_nearest_spec exDist [⟨"noaa/8410140", 44, -67⟩] 44 (-67)
    (some 2) none).2.2.2.1 5 2 rfl⟩

end TideDB

